import Mathlib

/-!
Verification of the `just` repository: shallow embeddings of the
`jimage` archive decoder (`crates/jimage/src/archive.rs`,
`crates/jimage/src/archive/parser.rs`) and of the classfile decoder
(`crates/class_file/src/parser.rs`, `class_file.rs`, `constant_pool.rs`,
`attributes.rs`), together with theorems about the claims of the spec.

Modelling conventions:
 * Rust byte slices are `List Nat`, each element intended `< 256`
   (hypotheses state this where a theorem needs it).
 * Rust `Result<T, E>` in code that can also panic is modelled by `POut E T`
   with a third constructor `panic`, which models any Rust panic
   (arithmetic overflow in debug builds, out-of-bounds indexing,
   `todo!()`, `unwrap()` on `Err`).  Functions returning plain values that
   can panic use `PanicOr T`.
 * Rust `&str` values are `List Char`; `&str` byte operations
   (`len`, byte-range slicing, `starts_with`, `bytes()`) are modelled
   at the UTF-8 byte level via `Char.utf8Size` and an explicit encoder.
 * Machine integers are `Nat`/`Int` with explicit two's-complement
   conversions (`i32ofNat`, `i64ofBits`) and wrap-arounds (`% 2^32`,
   `% 2^64`) exactly where the Rust types wrap.
-/

/-- Outcome of a Rust function returning `Result<α, ε>` in a context where a
panic is also possible.  `panic` models a Rust panic (debug-mode arithmetic
overflow, out-of-bounds index, `todo!()`, `unwrap()` on `Err`). -/
inductive POut (ε α : Type) where
  | panic : POut ε α
  | error (e : ε) : POut ε α
  | ok (a : α) : POut ε α
deriving DecidableEq, Repr

namespace POut

def bind {ε α β : Type} : POut ε α → (α → POut ε β) → POut ε β
  | .panic, _ => .panic
  | .error e, _ => .error e
  | .ok a, f => f a

instance {ε : Type} : Monad (POut ε) where
  pure := .ok
  bind := POut.bind

def map {ε α β : Type} (f : α → β) : POut ε α → POut ε β
  | .panic => .panic
  | .error e => .error e
  | .ok a => .ok (f a)

def isOk {ε α : Type} : POut ε α → Bool
  | .ok _ => true
  | _ => false

end POut

/-- Outcome of a Rust function returning a plain value (or `Option`) in a
context where a panic is possible. -/
inductive PanicOr (α : Type) where
  | panic : PanicOr α
  | ok (a : α) : PanicOr α
deriving DecidableEq, Repr

namespace PanicOr

def bind {α β : Type} : PanicOr α → (α → PanicOr β) → PanicOr β
  | .panic, _ => .panic
  | .ok a, f => f a

instance : Monad PanicOr where
  pure := .ok
  bind := PanicOr.bind

def mapM {α β : Type} (f : α → PanicOr β) : List α → PanicOr (List β)
  | [] => .ok []
  | a :: as => (f a).bind fun b => (mapM f as).bind fun bs => .ok (b :: bs)

end PanicOr

/-- `n as i32` for a Rust `usize`/`u32` value `n` : two's-complement
truncation to 32 bits, read as a signed integer. -/
def i32ofNat (n : Nat) : Int :=
  if n % 2 ^ 32 < 2 ^ 31 then ((n % 2 ^ 32 : Nat) : Int)
  else ((n % 2 ^ 32 : Nat) : Int) - 2 ^ 32

/-- A 32-bit pattern (a `Nat`) read as a signed `i32`. -/
def i32ofBits (n : Nat) : Int :=
  if n % 2 ^ 32 < 2 ^ 31 then ((n % 2 ^ 32 : Nat) : Int)
  else ((n % 2 ^ 32 : Nat) : Int) - 2 ^ 32

/-- A 64-bit pattern (a `Nat`) read as a signed `i64`. -/
def i64ofBits (n : Nat) : Int :=
  if n % 2 ^ 64 < 2 ^ 63 then ((n % 2 ^ 64 : Nat) : Int)
  else ((n % 2 ^ 64 : Nat) : Int) - 2 ^ 64

/-- `seed as u32` for a Rust `i32` value: two's-complement pattern. -/
def u32ofI32 (s : Int) : Nat := (s % 2 ^ 32).toNat

/-- UTF-8 encoding of a single Unicode scalar value (Rust `char`),
matching `str::bytes()`. -/
def utf8Bytes (c : Char) : List Nat :=
  let v := c.toNat
  if v < 0x80 then [v]
  else if v < 0x800 then [0xC0 + v / 0x40, 0x80 + v % 0x40]
  else if v < 0x10000 then
    [0xE0 + v / 0x1000, 0x80 + v / 0x40 % 0x40, 0x80 + v % 0x40]
  else
    [0xF0 + v / 0x40000, 0x80 + v / 0x1000 % 0x40, 0x80 + v / 0x40 % 0x40,
      0x80 + v % 0x40]

/-- The UTF-8 bytes of a Rust `&str` modelled as a `List Char`
(`str::bytes()`). -/
def strBytes (s : List Char) : List Nat := s.flatMap utf8Bytes

/-- The byte length of a Rust `&str` (`str::len()`). -/
def strLen (s : List Char) : Nat := (s.map Char.utf8Size).sum

/-- Strict UTF-8 decoding, matching `std::str::from_utf8`: rejects overlong
encodings, surrogates and values above `0x10FFFF`; `none` on any invalid
byte. -/
def decodeUtf8 : List Nat → Option (List Char)
  | [] => some []
  | b0 :: rest =>
    if b0 < 0x80 then
      (decodeUtf8 rest).map fun cs => Char.ofNat b0 :: cs
    else if 0xC2 ≤ b0 ∧ b0 ≤ 0xDF then
      match rest with
      | b1 :: rest1 =>
        if 0x80 ≤ b1 ∧ b1 ≤ 0xBF then
          (decodeUtf8 rest1).map fun cs =>
            Char.ofNat ((b0 - 0xC0) * 0x40 + (b1 - 0x80)) :: cs
        else none
      | _ => none
    else if 0xE0 ≤ b0 ∧ b0 ≤ 0xEF then
      match rest with
      | b1 :: rest1 =>
        match rest1 with
        | b2 :: rest2 =>
          let lo1 : Nat := if b0 = 0xE0 then 0xA0 else 0x80
          let hi1 : Nat := if b0 = 0xED then 0x9F else 0xBF
          if (lo1 ≤ b1 ∧ b1 ≤ hi1) ∧ (0x80 ≤ b2 ∧ b2 ≤ 0xBF) then
            (decodeUtf8 rest2).map fun cs =>
              Char.ofNat ((b0 - 0xE0) * 0x1000 + (b1 - 0x80) * 0x40 + (b2 - 0x80)) :: cs
          else none
        | [] => none
      | [] => none
    else if 0xF0 ≤ b0 ∧ b0 ≤ 0xF4 then
      match rest with
      | b1 :: rest1 =>
        match rest1 with
        | b2 :: rest2 =>
          match rest2 with
          | b3 :: rest3 =>
            let lo1 : Nat := if b0 = 0xF0 then 0x90 else 0x80
            let hi1 : Nat := if b0 = 0xF4 then 0x8F else 0xBF
            if (lo1 ≤ b1 ∧ b1 ≤ hi1) ∧ (0x80 ≤ b2 ∧ b2 ≤ 0xBF) ∧ (0x80 ≤ b3 ∧ b3 ≤ 0xBF) then
              (decodeUtf8 rest3).map fun cs =>
                Char.ofNat
                  ((b0 - 0xF0) * 0x40000 + (b1 - 0x80) * 0x1000 + (b2 - 0x80) * 0x40 +
                    (b3 - 0x80)) :: cs
            else none
          | [] => none
        | [] => none
      | [] => none
    else none

/-- Dropping a byte-indexed prefix of `k` bytes from a `&str`
(`&s[k..]`): `none` models the Rust panic when `k` is not on a character
boundary or exceeds the byte length. -/
def byteDrop : Nat → List Char → Option (List Char)
  | 0, s => some s
  | _ + 1, [] => none
  | k + 1, c :: cs =>
    if c.utf8Size ≤ k + 1 then byteDrop (k + 1 - c.utf8Size) cs else none

/-! ## The `jimage` archive decoder (`crates/jimage/src`) -/

namespace JImage

/-- `JImageError` (`crates/jimage/src/error.rs`).  `ioError` stands for
`IOError(..)`: the only I/O source here is a `Cursor` over a byte slice, so
it always means end-of-stream. -/
inductive JImageError where
  | ioError
  | invalidAttributeKind (k : Nat)
  | invalidMagicIdentifier (m : Nat)
deriving DecidableEq, Repr

/-- `AttributeKind` (`archive.rs`), without the `Total` marker (which only
fixes the array size 7). -/
inductive AttributeKind where
  | module
  | parent
  | base
  | extension
  | offset
  | compressed
  | uncompressed
deriving DecidableEq, Repr

/-- `TryFrom<u8> for AttributeKind` (`archive.rs`). -/
def AttributeKind.try_from (value : Nat) : Option AttributeKind :=
  match value with
  | 1 => some .module
  | 2 => some .parent
  | 3 => some .base
  | 4 => some .extension
  | 5 => some .offset
  | 6 => some .compressed
  | 7 => some .uncompressed
  | _ => none

/-- The `[u64; AttributeKind::Total]` attribute array of one resource. -/
structure AttrArray where
  module : Nat
  parent : Nat
  base : Nat
  extension : Nat
  offset : Nat
  compressed : Nat
  uncompressed : Nat
deriving DecidableEq, Repr

/-- The all-zero array `[0; AttributeKind::Total]`. -/
def AttrArray.zero : AttrArray := ⟨0, 0, 0, 0, 0, 0, 0⟩

/-- `attributes[kind as usize] = value`. -/
def AttrArray.set (a : AttrArray) (k : AttributeKind) (v : Nat) : AttrArray :=
  match k with
  | .module => { a with module := v }
  | .parent => { a with parent := v }
  | .base => { a with base := v }
  | .extension => { a with extension := v }
  | .offset => { a with offset := v }
  | .compressed => { a with compressed := v }
  | .uncompressed => { a with uncompressed := v }

/-- `attributes[kind as usize]` (read). -/
def AttrArray.get (a : AttrArray) (k : AttributeKind) : Nat :=
  match k with
  | .module => a.module
  | .parent => a.parent
  | .base => a.base
  | .extension => a.extension
  | .offset => a.offset
  | .compressed => a.compressed
  | .uncompressed => a.uncompressed

/-- Byte order of the generic parameter `E: ByteOrder`.  `Parser` is used at
`NativeEndian`, which is `le` on little-endian platforms and `be` on
big-endian ones. -/
inductive Endian where
  | le
  | be
deriving DecidableEq, Repr

/-- `Parser::read_u8`: one byte off the cursor; end-of-stream is
`IOError`. -/
def read_u8 : List Nat → POut JImageError (Nat × List Nat)
  | [] => .error .ioError
  | b :: rest => .ok (b, rest)

/-- `Parser::read_u16` (`ReadBytesExt::read_u16::<E>`). -/
def read_u16 (e : Endian) (l : List Nat) : POut JImageError (Nat × List Nat) :=
  (read_u8 l).bind fun (b0, l1) =>
  (read_u8 l1).bind fun (b1, l2) =>
  .ok (match e with
    | .le => b1 * 0x100 + b0
    | .be => b0 * 0x100 + b1, l2)

/-- `Parser::read_u32` (`ReadBytesExt::read_u32::<E>`). -/
def read_u32 (e : Endian) (l : List Nat) : POut JImageError (Nat × List Nat) :=
  (read_u8 l).bind fun (b0, l1) =>
  (read_u8 l1).bind fun (b1, l2) =>
  (read_u8 l2).bind fun (b2, l3) =>
  (read_u8 l3).bind fun (b3, l4) =>
  .ok (match e with
    | .le => ((b3 * 0x100 + b2) * 0x100 + b1) * 0x100 + b0
    | .be => ((b0 * 0x100 + b1) * 0x100 + b2) * 0x100 + b3, l4)

/-- `read_i32_into::<E>(&mut redirect_table)`: `n` signed 32-bit values,
read-exact (end-of-stream is `IOError`). -/
def read_i32_list (e : Endian) : Nat → List Nat → POut JImageError (List Int × List Nat)
  | 0, l => .ok ([], l)
  | n + 1, l =>
    (read_u32 e l).bind fun (v, l1) =>
    (read_i32_list e n l1).bind fun (vs, l2) =>
    .ok (i32ofBits v :: vs, l2)

/-- `read_u32_into::<E>(&mut attribute_offsets)`: `n` unsigned 32-bit
values. -/
def read_u32_list (e : Endian) : Nat → List Nat → POut JImageError (List Nat × List Nat)
  | 0, l => .ok ([], l)
  | n + 1, l =>
    (read_u32 e l).bind fun (v, l1) =>
    (read_u32_list e n l1).bind fun (vs, l2) =>
    .ok (v :: vs, l2)

/-- `self.r.read(&mut buf)?` for a `vec![0u8; n]` buffer on a `Cursor`:
copies `min n l.length` bytes, never fails, and leaves the rest of the
buffer zeroed.  Returns the filled buffer and the remaining input. -/
def read_fill (n : Nat) (l : List Nat) : List Nat × List Nat :=
  (l.take n ++ List.replicate (n - l.length) 0, l.drop n)

/-- The value-byte loop of `Parser::parse_attribute`:
`(0..=length).map(|_| self.read_u8()).try_fold(0u64, |acc, b| acc << 8 | b)`.
`count` is the number of bytes still to read; the accumulator is a `u64`
(shift wraps at 2^64). -/
def read_value_acc : Nat → Nat → List Nat → POut JImageError (Nat × List Nat)
  | 0, acc, l => .ok (acc, l)
  | n + 1, acc, l =>
    (read_u8 l).bind fun (b, l1) =>
    read_value_acc n ((acc <<< 8) % 2 ^ 64 ||| b) l1

/-- `Parser::parse_attribute` (`archive/parser.rs`): header byte, kind/length
split, terminator on `kind == 0`, `InvalidAttributeKind` otherwise, then
`length + 1` value bytes packed high byte first. -/
def parse_attribute (l : List Nat) :
    POut JImageError (Option (AttributeKind × Nat) × List Nat) :=
  (read_u8 l).bind fun (header_byte, rest) =>
  let kind := header_byte >>> 3
  let length := header_byte &&& 0x7
  if kind = 0 then .ok (none, rest)
  else
    match AttributeKind.try_from kind with
    | none => .error (.invalidAttributeKind kind)
    | some k =>
      (read_value_acc (length + 1) 0 rest).bind fun (value, rest1) =>
      .ok (some (k, value), rest1)

/-- The `while let` loop of `Parser::parse_attributes`.  The source loop
terminates because every iteration consumes at least one input byte; here
this is made manifest with a fuel argument, always called with fuel
`l.length + 1`, which lemma `parse_attributes_go_fuel` below proves can
never run out. -/
def parse_attributes_go : Nat → List Nat → AttrArray → POut JImageError AttrArray
  | 0, _, _ => .panic
  | fuel + 1, l, acc =>
    match parse_attribute l with
    | .panic => .panic
    | .error e => .error e
    | .ok (none, _) => .ok acc
    | .ok (some (k, v), rest) => parse_attributes_go fuel rest (acc.set k v)

/-- `Parser::parse_attributes`: zero-initialised array, then the record
loop. -/
def parse_attributes (l : List Nat) : POut JImageError AttrArray :=
  parse_attributes_go (l.length + 1) l AttrArray.zero

/-- `Header` (`archive.rs`). -/
structure Header where
  version : Nat × Nat
  flags : Nat
  resource_count : Nat
  table_length : Nat
  attributes_size : Nat
  strings_size : Nat
deriving DecidableEq, Repr

/-- `Index` (`archive.rs`). -/
structure Index where
  redirect_table : List Int
  attribute_offsets : List Nat
  strings_data : List Nat
  attribute_data : List Nat
deriving DecidableEq, Repr

/-- `Archive` (`archive.rs`).  `buf` is the whole input slice. -/
structure Archive where
  buf : List Nat
  header : Header
  index : Index
  resource_data_start : Nat
deriving DecidableEq, Repr

/-- `Parser::parse_magic_identifier`. -/
def parse_magic_identifier (e : Endian) (l : List Nat) :
    POut JImageError (Unit × List Nat) :=
  (read_u32 e l).bind fun (m, l1) =>
  if m = 0xCAFEDADA then .ok ((), l1) else .error (.invalidMagicIdentifier m)

/-- `Parser::parse_version`: minor first, returned as `(major, minor)`. -/
def parse_version (e : Endian) (l : List Nat) :
    POut JImageError ((Nat × Nat) × List Nat) :=
  (read_u16 e l).bind fun (minor, l1) =>
  (read_u16 e l1).bind fun (major, l2) =>
  .ok ((major, minor), l2)

/-- `Parser::parse_header`. -/
def parse_header (e : Endian) (l : List Nat) :
    POut JImageError (Header × List Nat) :=
  (parse_magic_identifier e l).bind fun (_, l1) =>
  (parse_version e l1).bind fun (version, l2) =>
  (read_u32 e l2).bind fun (flags, l3) =>
  (read_u32 e l3).bind fun (resource_count, l4) =>
  (read_u32 e l4).bind fun (table_length, l5) =>
  (read_u32 e l5).bind fun (attributes_size, l6) =>
  (read_u32 e l6).bind fun (strings_size, l7) =>
  .ok (⟨version, flags, resource_count, table_length, attributes_size,
    strings_size⟩, l7)

/-- `Parser::parse_index`. -/
def parse_index (e : Endian) (h : Header) (l : List Nat) :
    POut JImageError (Index × List Nat) :=
  (read_i32_list e h.table_length l).bind fun (redirect_table, l1) =>
  (read_u32_list e h.table_length l1).bind fun (attribute_offsets, l2) =>
  let (attribute_data, l3) := read_fill h.attributes_size l2
  let (strings_data, l4) := read_fill h.strings_size l3
  .ok (⟨redirect_table, attribute_offsets, strings_data, attribute_data⟩, l4)

/-- `Parser::parse_archive` / `Archive::parse`: header, index, and the
cursor position recorded as `resource_data_start`. -/
def parse_archive (e : Endian) (buf : List Nat) : POut JImageError Archive :=
  (parse_header e buf).bind fun (header, l1) =>
  (parse_index e header l1).bind fun (index, l2) =>
  .ok ⟨buf, header, index, buf.length - l2.length⟩

/-- `HASH_MULTIPLIER` (`archive.rs`): the FNV prime, as an `i32`. -/
def HASH_MULTIPLIER : Int := 0x01000193

/-- `hash(data, seed)` (`archive.rs`): FNV-like fold over the bytes of
`data` in `u32` wrapping arithmetic, sign bit masked off on return.  The
result is a non-negative `i32`. -/
def hash (data : List Nat) (seed : Int) : Int :=
  let hash_code :=
    data.foldl (fun useed byte => useed * u32ofI32 HASH_MULTIPLIER % 2 ^ 32 ^^^ byte)
      (u32ofI32 seed)
  ((hash_code &&& 0x7fffffff : Nat) : Int)

/-- `Resource::try_string` (via `Resource::attribute_offset`): the
NUL-terminated byte run of `strings_data` starting at the attribute's
offset, `none` if it is empty or not valid UTF-8.  Panics (slice range
out of bounds) when the offset exceeds `strings_data.len()`. -/
def try_string (a : Archive) (attrs : AttrArray) (k : AttributeKind) :
    PanicOr (Option (List Char)) :=
  let offset := attrs.get k
  if offset ≤ a.index.strings_data.length then
    let bytes := (a.index.strings_data.drop offset).takeWhile (fun n => n ≠ 0)
    if bytes = [] then .ok none else .ok (decodeUtf8 bytes)
  else .panic

/-- `Resource::string_at`: `try_string(..).unwrap_or_default()`. -/
def string_at (a : Archive) (attrs : AttrArray) (k : AttributeKind) :
    PanicOr (List Char) :=
  (try_string a attrs k).bind fun s => .ok (s.getD [])

/-- `Resource::full_name`: `/module/` ++ `parent/` ++ `base` ++ `.extension`,
each piece present iff its `try_string` is `Some`. -/
def full_name (a : Archive) (attrs : AttrArray) : PanicOr (List Char) :=
  (try_string a attrs .module).bind fun om =>
  (try_string a attrs .parent).bind fun op =>
  (try_string a attrs .base).bind fun ob =>
  (try_string a attrs .extension).bind fun oe =>
  .ok ((match om with | some m => '/' :: m ++ ['/'] | none => []) ++
    (match op with | some p => p ++ ['/'] | none => []) ++
    (match ob with | some b => b | none => []) ++
    (match oe with | some e => '.' :: e | none => []))

end JImage

namespace JImage

/-- The "Module" block of `Archive::verify`.  Result `some rest` is the
remaining path, `none` is the `return false` exit; `PanicOr.panic` models
the byte-slice panic `&path[2 + module.len()..]` off a character
boundary.  The `||` chain short-circuits: `path[1..]` is only taken after
`path.chars().nth(0) == Some('/')`, so that slice itself cannot panic. -/
def verify_module (m path : List Char) : PanicOr (Option (List Char)) :=
  if m.length > 0 then
    if path[0]? ≠ some '/' then .ok none
    else
      match byteDrop 1 path with
      | none => .panic
      | some path1 =>
        if ¬ m.isPrefixOf path1 then .ok none
        else if path[1 + strLen m]? ≠ some '/' then .ok none
        else
          match byteDrop (2 + strLen m) path with
          | none => .panic
          | some rest => .ok (some rest)
  else .ok (some path)

/-- The "Package" (parent) block of `Archive::verify`. -/
def verify_parent (p path : List Char) : PanicOr (Option (List Char)) :=
  if p.length > 0 then
    if ¬ p.isPrefixOf path then .ok none
    else if path[strLen p]? ≠ some '/' then .ok none
    else
      match byteDrop (1 + strLen p) path with
      | none => .panic
      | some rest => .ok (some rest)
  else .ok (some path)

/-- The "Basename" block of `Archive::verify`. -/
def verify_base (b path : List Char) : PanicOr (Option (List Char)) :=
  if ¬ b.isPrefixOf path then .ok none
  else
    match byteDrop (strLen b) path with
    | none => .panic
    | some rest => .ok (some rest)

/-- The "Extension" block of `Archive::verify`. -/
def verify_ext (ext path : List Char) : PanicOr (Option (List Char)) :=
  if ext.length > 0 then
    if path[0]? ≠ some '.' then .ok none
    else
      match byteDrop 1 path with
      | none => .panic
      | some path1 =>
        if ¬ ext.isPrefixOf path1 then .ok none
        else
          match byteDrop (1 + strLen ext) path with
          | none => .panic
          | some rest => .ok (some rest)
  else .ok (some path)

/-- `Archive::verify` on the four resource strings (the function reads the
resource only through `module()`, `parent()`, `base()`, `extension()`).
The final check is `path.len() == 0` on the remaining byte length. -/
def verify_strings (m p b ext path : List Char) : PanicOr Bool :=
  (verify_module m path).bind fun
  | none => .ok false
  | some path1 =>
    (verify_parent p path1).bind fun
    | none => .ok false
    | some path2 =>
      (verify_base b path2).bind fun
      | none => .ok false
      | some path3 =>
        (verify_ext ext path3).bind fun
        | none => .ok false
        | some path4 => .ok (strLen path4 = 0)

/-- `Archive::verify(&resource, path)`: each block fetches its string via
the `Resource` accessor (which can panic on a bad string offset); a block
that fails short-circuits before the next accessor runs, exactly as in the
source. -/
def verify (a : Archive) (attrs : AttrArray) (path : List Char) : PanicOr Bool :=
  (string_at a attrs .module).bind fun m =>
  (verify_module m path).bind fun
  | none => .ok false
  | some path1 =>
    (string_at a attrs .parent).bind fun p =>
    (verify_parent p path1).bind fun
    | none => .ok false
    | some path2 =>
      (string_at a attrs .base).bind fun b =>
      (verify_base b path2).bind fun
      | none => .ok false
      | some path3 =>
        (string_at a attrs .extension).bind fun ext =>
        (verify_ext ext path3).bind fun
        | none => .ok false
        | some path4 => .ok (strLen path4 = 0)

/-- `Archive::by_name` (`archive.rs`).  The result is the candidate
attribute array (a `Resource` is its attribute array plus the archive
reference).  Panics modelled: `% 0` when the redirect table is empty,
out-of-bounds indexing of `redirect_table` / `attribute_offsets`, a slice
start beyond `attribute_data.len()`, and a panic inside `verify`.  A
decode error is absorbed by `.ok()?` into `None`. -/
def by_name (a : Archive) (path : List Char) : PanicOr (Option AttrArray) :=
  let hash_code := hash (strBytes path) HASH_MULTIPLIER
  let d := i32ofNat a.index.redirect_table.length
  if d = 0 then .panic
  else
    let index := hash_code.tmod d
    match a.index.redirect_table[index.toNat]? with
    | none => .panic
    | some value =>
      if value = 0 then .ok none
      else
        let value1 := if value > 0 then (hash (strBytes path) value).tmod d
          else -1 - value
        match a.index.attribute_offsets[value1.toNat]? with
        | none => .panic
        | some attributes_offset =>
          if attributes_offset ≤ a.index.attribute_data.length then
            match parse_attributes (a.index.attribute_data.drop attributes_offset) with
            | .panic => .panic
            | .error _ => .ok none
            | .ok attributes =>
              (verify a attributes path).bind fun ok =>
              if ok then .ok (some attributes) else .ok none
          else .panic

/-- The body of `Resources::next` for in-range `index`: decode the
attribute stream at `attribute_offsets[index]`; `.unwrap()` turns a decode
error into a panic. -/
def resource_at (a : Archive) (index : Nat) : PanicOr AttrArray :=
  match a.index.attribute_offsets[index]? with
  | none => .panic
  | some attribute_offset =>
    if attribute_offset ≤ a.index.attribute_data.length then
      match parse_attributes (a.index.attribute_data.drop attribute_offset) with
      | .panic => .panic
      | .error _ => .panic
      | .ok attributes => .ok attributes
    else .panic

/-- `Resources::next` (`archive.rs`): `None` past the end of the redirect
table, otherwise the decoded resource and the advanced cursor. -/
def resources_next (a : Archive) (index : Nat) :
    PanicOr (Option (AttrArray × Nat)) :=
  if a.index.redirect_table.length ≤ index then .ok none
  else (resource_at a index).bind fun attributes => .ok (some (attributes, index + 1))

/-- The full sequence yielded by the `Resources` iterator: one resource per
redirect-table index, in bucket order. -/
def resources_list (a : Archive) : PanicOr (List AttrArray) :=
  PanicOr.mapM (resource_at a) (List.range a.index.redirect_table.length)

end JImage

/-! ## The classfile decoder (`crates/class_file/src`) -/

namespace ClassFile

/-- `CpInfo` (`constant_pool.rs`).  `utf8` keeps the raw length-prefixed
bytes: the source stores `String::from_utf8_lossy(&bytes)`, and no claim
depends on the decoded text.  `float` keeps the `(s, e, m)` components the
source computes from the bit pattern; the final `f32` product
`s * m * 2^(e - 150)` is floating-point arithmetic, outside this
embedding. -/
inductive CpInfo where
  | methodRef (class_index name_and_type_index : Nat)
  | fieldRef (class_index name_and_type_index : Nat)
  | float (s e m : Int)
  | interfaceMethodRef (class_index name_and_type_index : Nat)
  | classInfo (name_index : Nat)
  | nameAndType (name_index descriptor_index : Nat)
  | utf8 (bytes : List Nat)
  | stringRef (string_index : Nat)
  | invokeDynamic (bootstrap_method_attr_index name_and_type_index : Nat)
  | integer (v : Int)
  | methodHandle (reference_kind reference_index : Nat)
  | methodType (descriptor_index : Nat)
  | long (v : Int)
  | unusable
deriving DecidableEq, Repr

/-- `ClassFileError` (`error.rs`). -/
inductive ClassFileError where
  | ioError
  | unexpectedConstantPoolEntry (expected : String) (actual : CpInfo)
  | invalidCpInfoTag (t : Nat)
  | invalidMagicIdentifier (m : Nat)
deriving DecidableEq, Repr

/-- `ConstantPool` (`constant_pool.rs`). -/
structure ConstantPool where
  cp_infos : List CpInfo
deriving DecidableEq, Repr

/-- `Attribute` (`lib.rs`). -/
structure Attribute where
  attribute_name_index : Nat
  info : List Nat
deriving DecidableEq, Repr

/-- `FieldInfo` (`class_file.rs`).  `access_flags` keeps the raw `u16`:
`access_flags.rs` is not under `src/`, and no claim depends on individual
flag bits, so `AccessFlags::from_bits_truncate` is modelled as retaining
the read value. -/
structure FieldInfo where
  access_flags : Nat
  name_index : Nat
  descriptor_index : Nat
  attributes : List Attribute
deriving DecidableEq, Repr

/-- `MethodInfo` (`class_file.rs`). -/
structure MethodInfo where
  access_flags : Nat
  name_index : Nat
  descriptor_index : Nat
  attributes : List Attribute
deriving DecidableEq, Repr

/-- `ClassFile` (`class_file.rs`). -/
structure ClassFile where
  constant_pool : ConstantPool
  access_flags : Nat
  this_class : Nat
  super_class : Nat
  interfaces : List Nat
  fields : List FieldInfo
  methods : List MethodInfo
  attributes : List Attribute
deriving DecidableEq, Repr

/-- `Parser::read_u8` (big-endian reader over the input bytes;
end-of-stream is `IOError`). -/
def read_u8 : List Nat → POut ClassFileError (Nat × List Nat)
  | [] => .error .ioError
  | b :: rest => .ok (b, rest)

/-- `Parser::read_u16` (`BigEndian`). -/
def read_u16 (l : List Nat) : POut ClassFileError (Nat × List Nat) :=
  (read_u8 l).bind fun (b0, l1) =>
  (read_u8 l1).bind fun (b1, l2) =>
  .ok (b0 * 0x100 + b1, l2)

/-- `Parser::read_u32` (`BigEndian`). -/
def read_u32 (l : List Nat) : POut ClassFileError (Nat × List Nat) :=
  (read_u8 l).bind fun (b0, l1) =>
  (read_u8 l1).bind fun (b1, l2) =>
  (read_u8 l2).bind fun (b2, l3) =>
  (read_u8 l3).bind fun (b3, l4) =>
  .ok (((b0 * 0x100 + b1) * 0x100 + b2) * 0x100 + b3, l4)

/-- `Parser::read_i32` (`BigEndian`, signed). -/
def read_i32 (l : List Nat) : POut ClassFileError (Int × List Nat) :=
  (read_u32 l).bind fun (v, l1) => .ok (i32ofBits v, l1)

/-- `read_u16_into::<Endian>(&mut interfaces)`: `n` big-endian `u16`
values, read-exact. -/
def read_u16_list : Nat → List Nat → POut ClassFileError (List Nat × List Nat)
  | 0, l => .ok ([], l)
  | n + 1, l =>
    (read_u16 l).bind fun (v, l1) =>
    (read_u16_list n l1).bind fun (vs, l2) =>
    .ok (v :: vs, l2)

/-- `read_exact` into a `vec![0u8; n]` buffer: all `n` bytes or
`IOError`. -/
def read_exact (n : Nat) (l : List Nat) : POut ClassFileError (List Nat × List Nat) :=
  if n ≤ l.length then .ok (l.take n, l.drop n) else .error .ioError

/-- `Parser::parse_magic_identifier` (`parser.rs`). -/
def parse_magic_identifier (l : List Nat) : POut ClassFileError (Unit × List Nat) :=
  (read_u32 l).bind fun (m, l1) =>
  if m = 0xCAFEBABE then .ok ((), l1) else .error (.invalidMagicIdentifier m)

/-- `Parser::parse_version`: minor first, returned as `(major, minor)`. -/
def parse_version (l : List Nat) : POut ClassFileError ((Nat × Nat) × List Nat) :=
  (read_u16 l).bind fun (minor, l1) =>
  (read_u16 l1).bind fun (major, l2) =>
  .ok ((major, minor), l2)

/-- `Parser::parse_utf8` (tag 1): 16-bit length, then that many bytes. -/
def parse_utf8 (l : List Nat) : POut ClassFileError (CpInfo × List Nat) :=
  (read_u16 l).bind fun (length, l1) =>
  (read_exact length l1).bind fun (bytes, l2) =>
  .ok (.utf8 bytes, l2)

/-- `Parser::parse_integer` (tag 3). -/
def parse_integer (l : List Nat) : POut ClassFileError (CpInfo × List Nat) :=
  (read_i32 l).bind fun (int, l1) => .ok (.integer int, l1)

/-- `Parser::parse_float` (tag 4), following JVMS 4.4.4.  The three
non-finite ranges hit `todo!()` in the source, i.e. a panic; otherwise the
`(s, e, m)` components are computed exactly as in the source. -/
def parse_float (l : List Nat) : POut ClassFileError (CpInfo × List Nat) :=
  (read_u32 l).bind fun (bits, l1) =>
  if bits = 0x7f800000 then .panic
  else if bits = 0xff800000 then .panic
  else if (0x7f800001 ≤ bits ∧ bits ≤ 0x7fffffff) ∨
      (0xff800001 ≤ bits ∧ bits ≤ 0xffffffff) then .panic
  else
    let s : Int := if bits >>> 31 = 0 then 1 else -1
    let e : Nat := (bits >>> 23) &&& 0xff
    let m : Nat := if e = 0 then (bits &&& 0x7fffff) <<< 1
      else (bits &&& 0x7fffff) ||| 0x800000
    .ok (.float s e m, l1)

/-- `Parser::parse_long` (tag 5): two big-endian `u32` halves, high first;
`(high as i64) << 32` wraps as a 64-bit pattern, and the following `i64`
addition of the low half can be shown never to overflow. -/
def parse_long (l : List Nat) : POut ClassFileError (CpInfo × List Nat) :=
  (read_u32 l).bind fun (high_bytes, l1) =>
  (read_u32 l1).bind fun (low_bytes, l2) =>
  .ok (.long (i64ofBits (high_bytes <<< 32) + low_bytes), l2)

/-- `Parser::parse_class_info` (tag 7). -/
def parse_class_info (l : List Nat) : POut ClassFileError (CpInfo × List Nat) :=
  (read_u16 l).bind fun (name_index, l1) => .ok (.classInfo name_index, l1)

/-- `Parser::parse_string` (tag 8). -/
def parse_string (l : List Nat) : POut ClassFileError (CpInfo × List Nat) :=
  (read_u16 l).bind fun (string_index, l1) => .ok (.stringRef string_index, l1)

/-- `Parser::parse_ref_info` (tags 9, 10, 11). -/
def parse_ref_info (l : List Nat) : POut ClassFileError ((Nat × Nat) × List Nat) :=
  (read_u16 l).bind fun (class_index, l1) =>
  (read_u16 l1).bind fun (name_and_type_index, l2) =>
  .ok ((class_index, name_and_type_index), l2)

/-- `Parser::parse_name_and_type_info` (tag 12). -/
def parse_name_and_type_info (l : List Nat) : POut ClassFileError (CpInfo × List Nat) :=
  (read_u16 l).bind fun (name_index, l1) =>
  (read_u16 l1).bind fun (descriptor_index, l2) =>
  .ok (.nameAndType name_index descriptor_index, l2)

/-- `Parser::parse_method_handle` (tag 15). -/
def parse_method_handle (l : List Nat) : POut ClassFileError (CpInfo × List Nat) :=
  (read_u8 l).bind fun (reference_kind, l1) =>
  (read_u16 l1).bind fun (reference_index, l2) =>
  .ok (.methodHandle reference_kind reference_index, l2)

/-- `Parser::parse_method_type_info` (tag 16). -/
def parse_method_type_info (l : List Nat) : POut ClassFileError (CpInfo × List Nat) :=
  (read_u16 l).bind fun (descriptor_index, l1) => .ok (.methodType descriptor_index, l1)

/-- `Parser::parse_invoke_dynamic_info` (tag 18). -/
def parse_invoke_dynamic_info (l : List Nat) : POut ClassFileError (CpInfo × List Nat) :=
  (read_u16 l).bind fun (bootstrap_method_attr_index, l1) =>
  (read_u16 l1).bind fun (name_and_type_index, l2) =>
  .ok (.invokeDynamic bootstrap_method_attr_index name_and_type_index, l2)

/-- `Parser::parse_cp_info`: dispatch on the tag byte; the second component
is the slot size (2 for `Long`, 1 otherwise); unknown tags fail with
`InvalidCpInfoTag`. -/
def parse_cp_info (l : List Nat) : POut ClassFileError ((CpInfo × Nat) × List Nat) :=
  (read_u8 l).bind fun (tag, l1) =>
  match tag with
  | 1 => (parse_utf8 l1).bind fun (c, l2) => .ok ((c, 1), l2)
  | 3 => (parse_integer l1).bind fun (c, l2) => .ok ((c, 1), l2)
  | 4 => (parse_float l1).bind fun (c, l2) => .ok ((c, 1), l2)
  | 5 => (parse_long l1).bind fun (c, l2) => .ok ((c, 2), l2)
  | 7 => (parse_class_info l1).bind fun (c, l2) => .ok ((c, 1), l2)
  | 8 => (parse_string l1).bind fun (c, l2) => .ok ((c, 1), l2)
  | 9 => (parse_ref_info l1).bind fun (r, l2) => .ok ((.fieldRef r.1 r.2, 1), l2)
  | 10 => (parse_ref_info l1).bind fun (r, l2) => .ok ((.methodRef r.1 r.2, 1), l2)
  | 11 => (parse_ref_info l1).bind fun (r, l2) =>
      .ok ((.interfaceMethodRef r.1 r.2, 1), l2)
  | 12 => (parse_name_and_type_info l1).bind fun (c, l2) => .ok ((c, 1), l2)
  | 15 => (parse_method_handle l1).bind fun (c, l2) => .ok ((c, 1), l2)
  | 16 => (parse_method_type_info l1).bind fun (c, l2) => .ok ((c, 1), l2)
  | 18 => (parse_invoke_dynamic_info l1).bind fun (c, l2) => .ok ((c, 1), l2)
  | t => .error (.invalidCpInfoTag t)

/-- The `while count > 0` loop of `Parser::parse_constant_pool`: pushes the
entry and `slot_size - 1` `Unusable` sentinels, then subtracts `slot_size`
from `count`.  When `slot_size = 2` and only one slot remains, the `usize`
subtraction underflows: a debug-build panic (in release the wrapped counter
makes the loop consume the rest of the input and fail; it never
succeeds).  The final catch-all branch is unreachable: `parse_cp_info`
only returns slot sizes 1 and 2 (`parse_cp_info_slot_size` below). -/
def parse_cp_entries : Nat → List Nat → POut ClassFileError (List CpInfo × List Nat)
  | 0, l => .ok ([], l)
  | count + 1, l =>
    match parse_cp_info l with
    | .panic => .panic
    | .error e => .error e
    | .ok ((cp_info, slot_size), l1) =>
      if slot_size = 1 then
        (parse_cp_entries count l1).bind fun (rest, l2) =>
          .ok (cp_info :: rest, l2)
      else if slot_size = 2 then
        match count with
        | 0 => .panic
        | count1 + 1 =>
          (parse_cp_entries count1 l1).bind fun (rest, l2) =>
            .ok (cp_info :: .unusable :: rest, l2)
      else .panic

/-- `Parser::parse_constant_pool`: the count is one more than the number of
slots; `constant_pool_count as usize - 1` underflows (debug panic) when the
count reads zero. -/
def parse_constant_pool (l : List Nat) : POut ClassFileError (ConstantPool × List Nat) :=
  (read_u16 l).bind fun (constant_pool_count, l1) =>
  match constant_pool_count with
  | 0 => .panic
  | count + 1 =>
    (parse_cp_entries count l1).bind fun (res, l2) => .ok (ConstantPool.mk res, l2)

/-- `Parser::parse_attribute` (`parser.rs`): `u16` name index, `u32`
length, then the raw bytes. -/
def parse_attribute (l : List Nat) : POut ClassFileError (Attribute × List Nat) :=
  (read_u16 l).bind fun (attribute_name_index, l1) =>
  (read_u32 l1).bind fun (attribute_length, l2) =>
  (read_exact attribute_length l2).bind fun (info, l3) =>
  .ok (⟨attribute_name_index, info⟩, l3)

/-- `Parser::parse_attributes(count)`. -/
def parse_attributes : Nat → List Nat → POut ClassFileError (List Attribute × List Nat)
  | 0, l => .ok ([], l)
  | n + 1, l =>
    (parse_attribute l).bind fun (a, l1) =>
    (parse_attributes n l1).bind fun (as, l2) =>
    .ok (a :: as, l2)

/-- `Parser::parse_field_info`. -/
def parse_field_info (l : List Nat) : POut ClassFileError (FieldInfo × List Nat) :=
  (read_u16 l).bind fun (access_flags, l1) =>
  (read_u16 l1).bind fun (name_index, l2) =>
  (read_u16 l2).bind fun (descriptor_index, l3) =>
  (read_u16 l3).bind fun (attributes_count, l4) =>
  (parse_attributes attributes_count l4).bind fun (attributes, l5) =>
  .ok (⟨access_flags, name_index, descriptor_index, attributes⟩, l5)

/-- `Parser::parse_method_info`. -/
def parse_method_info (l : List Nat) : POut ClassFileError (MethodInfo × List Nat) :=
  (read_u16 l).bind fun (access_flags, l1) =>
  (read_u16 l1).bind fun (name_index, l2) =>
  (read_u16 l2).bind fun (descriptor_index, l3) =>
  (read_u16 l3).bind fun (attributes_count, l4) =>
  (parse_attributes attributes_count l4).bind fun (attributes, l5) =>
  .ok (⟨access_flags, name_index, descriptor_index, attributes⟩, l5)

/-- `(0..count).map(|_| parse_field_info()).collect()`. -/
def parse_fields : Nat → List Nat → POut ClassFileError (List FieldInfo × List Nat)
  | 0, l => .ok ([], l)
  | n + 1, l =>
    (parse_field_info l).bind fun (f, l1) =>
    (parse_fields n l1).bind fun (fs, l2) =>
    .ok (f :: fs, l2)

/-- `(0..count).map(|_| parse_method_info()).collect()`. -/
def parse_methods : Nat → List Nat → POut ClassFileError (List MethodInfo × List Nat)
  | 0, l => .ok ([], l)
  | n + 1, l =>
    (parse_method_info l).bind fun (m, l1) =>
    (parse_methods n l1).bind fun (ms, l2) =>
    .ok (m :: ms, l2)

/-- `Parser::parse` (`parser.rs`): the complete classfile. -/
def parse (l : List Nat) : POut ClassFileError (ClassFile × List Nat) :=
  (parse_magic_identifier l).bind fun (_, l1) =>
  (parse_version l1).bind fun (_, l2) =>
  (parse_constant_pool l2).bind fun (constant_pool, l3) =>
  (read_u16 l3).bind fun (access_flags, l4) =>
  (read_u16 l4).bind fun (this_class, l5) =>
  (read_u16 l5).bind fun (super_class, l6) =>
  (read_u16 l6).bind fun (interfaces_count, l7) =>
  (read_u16_list interfaces_count l7).bind fun (interfaces, l8) =>
  (read_u16 l8).bind fun (fields_count, l9) =>
  (parse_fields fields_count l9).bind fun (fields, l10) =>
  (read_u16 l10).bind fun (methods_count, l11) =>
  (parse_methods methods_count l11).bind fun (methods, l12) =>
  (read_u16 l12).bind fun (attributes_count, l13) =>
  (parse_attributes attributes_count l13).bind fun (attributes, l14) =>
  .ok (⟨constant_pool, access_flags, this_class, super_class, interfaces,
    fields, methods, attributes⟩, l14)

/-- `Index<u16> for ConstantPool`: `&self.cp_infos[index as usize - 1]`.
Both the `index = 0` underflow and an out-of-range index panic. -/
def cp_get (cp : ConstantPool) (index : Nat) : POut ClassFileError CpInfo :=
  match index with
  | 0 => .panic
  | i + 1 =>
    match cp.cp_infos[i]? with
    | some c => .ok c
    | none => .panic

/-- `matches_cp_info!(cp, index, Class)`: the `ClassInfo` payload, or
`UnexpectedConstantPoolEntry("Class", entry)`. -/
def match_class (cp : ConstantPool) (index : Nat) : POut ClassFileError Nat :=
  (cp_get cp index).bind fun c =>
  match c with
  | .classInfo name_index => .ok name_index
  | c => .error (.unexpectedConstantPoolEntry "Class" c)

/-- `matches_cp_info!(cp, index, Utf8)`: the `Utf8` payload, or
`UnexpectedConstantPoolEntry("Utf8", entry)`. -/
def match_utf8 (cp : ConstantPool) (index : Nat) : POut ClassFileError (List Nat) :=
  (cp_get cp index).bind fun c =>
  match c with
  | .utf8 s => .ok s
  | c => .error (.unexpectedConstantPoolEntry "Utf8" c)

/-- `ClassFile::super_class` (the accessor; renamed from the field it
shadows in Rust).  Note the source dereferences
`constant_pool[self.super_class]` first and only then compares the
resulting `name_index` against zero. -/
def super_class_name (cf : ClassFile) : POut ClassFileError (Option (List Nat)) :=
  (match_class cf.constant_pool cf.super_class).bind fun name_index =>
  if name_index = 0 then .ok none
  else (match_utf8 cf.constant_pool name_index).bind fun s => .ok (some s)

/-- `ClassFile::class_name`. -/
def class_name (cf : ClassFile) : POut ClassFileError (List Nat) :=
  (match_class cf.constant_pool cf.this_class).bind fun name_index =>
  match_utf8 cf.constant_pool name_index

/-- `ClassFile::field_name`. -/
def field_name (cf : ClassFile) (f : FieldInfo) : POut ClassFileError (List Nat) :=
  match_utf8 cf.constant_pool f.name_index

/-- `ClassFile::field_descriptor`. -/
def field_descriptor (cf : ClassFile) (f : FieldInfo) : POut ClassFileError (List Nat) :=
  match_utf8 cf.constant_pool f.descriptor_index

/-- `ClassFile::method_name`. -/
def method_name (cf : ClassFile) (m : MethodInfo) : POut ClassFileError (List Nat) :=
  match_utf8 cf.constant_pool m.name_index

/-- `ClassFile::method_descriptor`. -/
def method_descriptor (cf : ClassFile) (m : MethodInfo) : POut ClassFileError (List Nat) :=
  match_utf8 cf.constant_pool m.descriptor_index

/-- `Attributes::find_by_name` (`attributes.rs`): scan the attribute list;
a non-`Utf8` pool entry at the name index is skipped by the `let ... else
continue`.  The name is compared as raw UTF-8 bytes (see `CpInfo.utf8`).
The `error` case of `cp_get` is unreachable (indexing only panics or
returns an entry). -/
def find_by_name (cp : ConstantPool) : List Attribute → List Nat → PanicOr (Option Attribute)
  | [], _ => .ok none
  | a :: rest, name =>
    match cp_get cp a.attribute_name_index with
    | .panic => .panic
    | .error _ => .panic
    | .ok (.utf8 s) =>
      if s = name then .ok (some a) else find_by_name cp rest name
    | .ok _ => find_by_name cp rest name

end ClassFile

namespace JImage

/-- Full-name reconstruction over the four resource strings, presence given
by non-emptiness (the spec's reconstruction rule, section 4.5; it is what
`Resource::full_name` computes, since `try_string` is `Some` exactly on a
non-empty, valid string). -/
def full_name_strings (m p b ext : List Char) : List Char :=
  (if m ≠ [] then '/' :: m ++ ['/'] else []) ++
    (if p ≠ [] then p ++ ['/'] else []) ++ b ++
    (if ext ≠ [] then '.' :: ext else [])

/-- The spec's packing of value bytes, high byte first:
`acc = (acc << 8) | byte` over a `u64` accumulator starting at 0. -/
def msbValue (bs : List Nat) : Nat :=
  bs.foldl (fun acc byte => (acc <<< 8) % 2 ^ 64 ||| byte) 0

/-- The record list of an attribute stream: the `(kind, value)` pairs read
by `parse_attribute` until the terminator, in order.  Same fuel convention
as `parse_attributes_go`. -/
def attr_records : Nat → List Nat → POut JImageError (List (AttributeKind × Nat))
  | 0, _ => .panic
  | fuel + 1, l =>
    match parse_attribute l with
    | .panic => .panic
    | .error e => .error e
    | .ok (none, _) => .ok []
    | .ok (some kv, rest) =>
      (attr_records fuel rest).bind fun recs => .ok (kv :: recs)

/-- Claim C1, steps 5-6, at a selected index `i`: whenever
`attribute_offsets[i]` exists and the attribute stream there decodes, the
lookup returns the candidate exactly when verification succeeds. -/
def C1Lookup (a : Archive) (p : List Char) (i : Nat) : Prop :=
  ∀ off, a.index.attribute_offsets[i]? = some off →
    ∀ attrs, parse_attributes (a.index.attribute_data.drop off) = .ok attrs →
      (verify a attrs p = .ok true → by_name a p = .ok (some attrs)) ∧
      (verify a attrs p = .ok false → by_name a p = .ok none)

/-- Claim C1 as stated: `h = hash(p, HASH_MULTIPLIER)`,
`bucket = h mod table_length`, `r = redirect_table[bucket]`; `r = 0` means
absent, `r > 0` dispatches through `hash(p, r) mod table_length`, `r < 0`
through the direct index `-1 - r`. -/
def C1Prop (a : Archive) (p : List Char) : Prop :=
  ∀ r, a.index.redirect_table[(hash (strBytes p) HASH_MULTIPLIER).toNat %
      a.index.redirect_table.length]? = some r →
    (r = 0 → by_name a p = .ok none) ∧
    (0 < r → C1Lookup a p
      ((hash (strBytes p) r).toNat % a.index.redirect_table.length)) ∧
    (r < 0 → C1Lookup a p (-1 - r).toNat)

/-- Claim C2 as stated: for every successfully parsed archive and every
non-empty resource yielded by iteration, `by_name` round-trips its full
name to the same attribute values. -/
def C2Prop : Prop :=
  ∀ e bytes a, parse_archive e bytes = .ok a →
    ∀ rs, resources_list a = .ok rs →
      ∀ r, r ∈ rs →
        ∀ p, full_name a r = .ok p → p ≠ [] →
          by_name a p = .ok (some r)

/-- The hash value of the path "a" (used by the concrete archives below). -/
def hval : Nat := (hash (strBytes ['a']) HASH_MULTIPLIER).toNat

/-- A 42-byte little-endian archive: table length 1, redirect entry `0`,
offset table `[0]`, one attribute stream `Base -> 1`, string pool
`"\0a\0"`. -/
def c2bytes : List Nat :=
  [0xDA, 0xDA, 0xFE, 0xCA, 0x00, 0x00, 0x00, 0x00,
   0x00, 0x00, 0x00, 0x00, 0x01, 0x00, 0x00, 0x00,
   0x01, 0x00, 0x00, 0x00, 0x03, 0x00, 0x00, 0x00,
   0x03, 0x00, 0x00, 0x00,
   0x00, 0x00, 0x00, 0x00,
   0x00, 0x00, 0x00, 0x00,
   0x18, 0x01, 0x00,
   0x00, 0x61, 0x00]

/-- The archive `parse_archive .le c2bytes` decodes to. -/
def c2arch : Archive :=
  { buf := c2bytes
    header := ⟨(0, 0), 0, 1, 1, 3, 3⟩
    index := ⟨[0], [0], [0, 0x61, 0], [0x18, 0x01, 0]⟩
    resource_data_start := 42 }

/-- The resource at bucket 0 of `c2arch`: base string at offset 1
("a"), everything else zero. -/
def c2res : AttrArray := ⟨0, 0, 1, 0, 0, 0, 0⟩

/-- `c2arch` with redirect entry `-1` instead of `0`: bucket 0 dispatches
directly to index 0. -/
def w2arch : Archive :=
  { buf := []
    header := ⟨(0, 0), 0, 1, 1, 3, 3⟩
    index := ⟨[-1], [0], [0, 0x61, 0], [0x18, 0x01, 0]⟩
    resource_data_start := 42 }

/-- An archive whose only attribute stream is the invalid byte `0xFF`
(kind 31): decoding it fails with `InvalidAttributeKind`. -/
def badArch : Archive :=
  { buf := []
    header := ⟨(0, 0), 0, 1, 1, 1, 0⟩
    index := ⟨[-1], [0], [], [0xFF]⟩
    resource_data_start := 0 }

/-- An archive with `2^32 - 1` redirect buckets: entry `-1` at bucket
`hval`, entry `0` at bucket 0, all offsets 0, and the same tiny attribute
stream and string pool as `c2arch`.  `table_length as i32` is `-1` for this
archive. -/
def bigArch : Archive :=
  { buf := []
    header := ⟨(0, 0), 0, 1, 2 ^ 32 - 1, 3, 3⟩
    index :=
      ⟨(0 :: List.replicate (hval - 1) 0) ++
        (-1 : Int) :: List.replicate (2 ^ 32 - 2 - hval) 0,
        List.replicate (2 ^ 32 - 1) 0,
        [0, 0x61, 0], [0x18, 0x01, 0]⟩
    resource_data_start := 0 }

end JImage

namespace ClassFile

/-- The four magic bytes `0xCAFEBABE` in stream order. -/
def magic_bytes : List Nat := [0xCA, 0xFE, 0xBA, 0xBE]

/-- Claim C7 as stated.  Modelled from the spec: "all internal lengths fit
within the input" is rendered as the absence of the end-of-stream
`IOError`, per section 7 of the spec ("a truncated input surfaces as
IOError (end-of-stream)"). -/
def C7Prop : Prop :=
  ∀ l, (∀ b ∈ l, b < 256) →
    ((parse l).isOk = true ↔
      (magic_bytes.isPrefixOf l ∧ parse l ≠ .error .ioError))

/-- A minimal 24-byte classfile: empty constant pool (count 1), all
indices and counts zero.  Its `super_class` field is 0. -/
def c4b : List Nat :=
  [0xCA, 0xFE, 0xBA, 0xBE, 0, 0, 0, 0, 0, 1,
   0, 0, 0, 0, 0, 0, 0, 0, 0, 0, 0, 0, 0, 0]

/-- The classfile `parse c4b` decodes to. -/
def c4cf : ClassFile := ⟨⟨[]⟩, 0, 0, 0, [], [], [], []⟩

/-- A 33-byte classfile whose pool has count 3: a single `Long` entry
occupying two slots. -/
def c6b : List Nat :=
  [0xCA, 0xFE, 0xBA, 0xBE, 0, 0, 0, 0, 0, 3, 5, 0, 0, 0, 0, 0, 0, 0, 0,
   0, 0, 0, 0, 0, 0, 0, 0, 0, 0, 0, 0, 0, 0]

/-- The classfile `parse c6b` decodes to. -/
def c6cf : ClassFile := ⟨⟨[.long 0, .unusable]⟩, 0, 0, 0, [], [], [], []⟩

/-- Correct magic and well-delimited input, but constant-pool tag 2:
`parse` rejects it with `InvalidCpInfoTag(2)`. -/
def c7cexb : List Nat :=
  [0xCA, 0xFE, 0xBA, 0xBE, 0, 0, 0, 0, 0, 2, 2]

end ClassFile

/-! ## Supporting lemmas -/

namespace POut

@[simp] theorem bind_ok {ε α β : Type} (a : α) (f : α → POut ε β) :
    POut.bind (.ok a) f = f a := rfl

@[simp] theorem bind_error {ε α β : Type} (e : ε) (f : α → POut ε β) :
    POut.bind (.error e) f = .error e := rfl

@[simp] theorem bind_panic {ε α β : Type} (f : α → POut ε β) :
    POut.bind .panic f = .panic := rfl

@[simp] theorem monad_bind_eq_bind {ε α β : Type} (x : POut ε α) (f : α → POut ε β) :
    (x >>= f) = POut.bind x f := rfl

theorem bind_eq_ok {ε α β : Type} {x : POut ε α} {f : α → POut ε β} {b : β}
    (h : POut.bind x f = .ok b) : ∃ a, x = .ok a ∧ f a = .ok b := by
  cases x with
  | panic => simp [POut.bind] at h
  | error e => simp [POut.bind] at h
  | ok a => exact ⟨a, rfl, h⟩

end POut

namespace PanicOr

@[simp] theorem ok_bind {α β : Type} (a : α) (f : α → PanicOr β) :
    PanicOr.bind (.ok a) f = f a := rfl

@[simp] theorem panic_bind {α β : Type} (f : α → PanicOr β) :
    PanicOr.bind .panic f = .panic := rfl

@[simp] theorem monad_bind_eq {α β : Type} (x : PanicOr α) (f : α → PanicOr β) :
    (x >>= f) = PanicOr.bind x f := rfl

theorem eq_ok_of_bind {α β : Type} {x : PanicOr α} {f : α → PanicOr β} {b : β}
    (h : PanicOr.bind x f = .ok b) : ∃ a, x = .ok a ∧ f a = .ok b := by
  cases x with
  | panic => simp [PanicOr.bind] at h
  | ok a => exact ⟨a, rfl, h⟩

end PanicOr

theorem shiftLeft_lor_eq_add (a b n : Nat) (h : b < 2 ^ n) :
    a <<< n ||| b = a <<< n + b := by
  apply Nat.eq_of_testBit_eq
  intro i
  rw [Nat.testBit_lor, Nat.shiftLeft_eq, Nat.mul_comm, Nat.testBit_mul_pow_two_add a h,
    Nat.testBit_mul_pow_two]
  rcases Nat.lt_or_ge i n with hi | hi
  · simp [hi, Nat.not_le.mpr hi]
  · simp only [Nat.not_lt.mpr hi, if_false, ge_iff_le, hi, decide_True, Bool.true_and]
    rw [Nat.testBit_lt_two_pow (Nat.lt_of_lt_of_le h (Nat.pow_le_pow_right (by omega) hi))]
    simp

theorem i64ofBits_shift_add_eq_or (hi lo : Nat) (hhi : hi < 2 ^ 32) (hlo : lo < 2 ^ 32) :
    i64ofBits (hi <<< 32) + (lo : Int) = i64ofBits (hi <<< 32 ||| lo) := by
  rw [shiftLeft_lor_eq_add _ _ _ hlo, Nat.shiftLeft_eq]
  have h2 : hi ≤ 2 ^ 32 - 1 := by omega
  have h3 : hi * 2 ^ 32 ≤ (2 ^ 32 - 1) * 2 ^ 32 := Nat.mul_le_mul_right _ h2
  have hb1 : hi * 2 ^ 32 < 2 ^ 64 := by omega
  have hb2 : hi * 2 ^ 32 + lo < 2 ^ 64 := by omega
  simp only [i64ofBits, Nat.mod_eq_of_lt hb1, Nat.mod_eq_of_lt hb2]
  split <;> split <;> push_cast <;> omega

/-! ## Claim theorems: the classfile decoder -/

namespace ClassFile

/-- C9: `parse_long` reads two big-endian 32-bit halves, high then low, and
the decoded `Long` is `(high << 32) | low` read as a signed 64-bit
integer (equivalently, the shifted high half plus the zero-extended low
half, as the source computes it). -/
theorem claim_C9 (b0 b1 b2 b3 b4 b5 b6 b7 : Nat) (rest : List Nat)
    (h0 : b0 < 256) (h1 : b1 < 256) (h2 : b2 < 256) (h3 : b3 < 256)
    (h4 : b4 < 256) (h5 : b5 < 256) (h6 : b6 < 256) (h7 : b7 < 256) :
    parse_long (b0 :: b1 :: b2 :: b3 :: b4 :: b5 :: b6 :: b7 :: rest) =
      .ok (.long (i64ofBits
        ((((b0 * 0x100 + b1) * 0x100 + b2) * 0x100 + b3) <<< 32 |||
          (((b4 * 0x100 + b5) * 0x100 + b6) * 0x100 + b7))), rest) := by
  simp only [parse_long, read_u32, read_u8, POut.bind_ok]
  rw [i64ofBits_shift_add_eq_or _ _ (by omega) (by omega)]

/-- Witness for C9 at a concrete input: high half `0xFFFFFFFF`, low half
`1` decode to the signed value `-4294967295`. -/
theorem claim_C9_witness :
    parse_long [0xFF, 0xFF, 0xFF, 0xFF, 0, 0, 0, 1] =
      .ok (.long (-4294967295), []) := by
  have h := claim_C9 0xFF 0xFF 0xFF 0xFF 0 0 0 1 []
    (by decide) (by decide) (by decide) (by decide)
    (by decide) (by decide) (by decide) (by decide)
  rw [h]
  decide

/-- C8 (the code bug): on the bit patterns of `+inf` (`0x7f800000`),
`-inf` (`0xff800000`) and a NaN (`0x7fc00000`), `parse_float` hits
`todo!()` and panics instead of decoding the value. -/
theorem claim_C8 :
    parse_float [0x7f, 0x80, 0x00, 0x00] = .panic ∧
      parse_float [0xff, 0x80, 0x00, 0x00] = .panic ∧
      parse_float [0x7f, 0xc0, 0x00, 0x00] = .panic := by
  decide

/-- C4 (the code bug): `c4b` parses successfully into a classfile whose
`super_class` field is 0, and the `super_class()` accessor panics on it
(it indexes `constant_pool[0]`, i.e. `cp_infos[0 - 1]`) instead of
returning "no superclass". -/
theorem claim_C4 :
    parse c4b = .ok (c4cf, []) ∧ c4cf.super_class = 0 ∧
      super_class_name c4cf = .panic := by
  decide

end ClassFile

namespace ClassFile

theorem read_u8_eq_ok {l : List Nat} {b : Nat} {r : List Nat}
    (h : read_u8 l = .ok (b, r)) : l = b :: r := by
  cases l with
  | nil => simp [read_u8] at h
  | cons x xs => simp [read_u8, POut.ok.injEq, Prod.mk.injEq] at h; simp [h.1, h.2]

theorem read_u16_eq_ok {l : List Nat} {v : Nat} {r : List Nat}
    (h : read_u16 l = .ok (v, r)) :
    ∃ b0 b1, l = b0 :: b1 :: r ∧ v = b0 * 0x100 + b1 := by
  obtain ⟨⟨b0, l1⟩, h0, h⟩ := POut.bind_eq_ok h
  obtain ⟨⟨b1, l2⟩, h1, h⟩ := POut.bind_eq_ok h
  simp only [POut.ok.injEq, Prod.mk.injEq] at h
  exact ⟨b0, b1, by rw [read_u8_eq_ok h0, read_u8_eq_ok h1, h.2], h.1.symm⟩

theorem read_u32_eq_ok {l : List Nat} {v : Nat} {r : List Nat}
    (h : read_u32 l = .ok (v, r)) :
    ∃ b0 b1 b2 b3, l = b0 :: b1 :: b2 :: b3 :: r ∧
      v = ((b0 * 0x100 + b1) * 0x100 + b2) * 0x100 + b3 := by
  obtain ⟨⟨b0, l1⟩, h0, h⟩ := POut.bind_eq_ok h
  obtain ⟨⟨b1, l2⟩, h1, h⟩ := POut.bind_eq_ok h
  obtain ⟨⟨b2, l3⟩, h2, h⟩ := POut.bind_eq_ok h
  obtain ⟨⟨b3, l4⟩, h3, h⟩ := POut.bind_eq_ok h
  simp only [POut.ok.injEq, Prod.mk.injEq] at h
  exact ⟨b0, b1, b2, b3,
    by rw [read_u8_eq_ok h0, read_u8_eq_ok h1, read_u8_eq_ok h2, read_u8_eq_ok h3, h.2],
    h.1.symm⟩

theorem parse_magic_identifier_rem {l : List Nat} {u : Unit} {r : List Nat}
    (h : parse_magic_identifier l = .ok (u, r)) : r = l.drop 4 := by
  obtain ⟨⟨m, l1⟩, hm, h⟩ := POut.bind_eq_ok h
  dsimp only at h
  obtain ⟨b0, b1, b2, b3, hl, _⟩ := read_u32_eq_ok hm
  split at h
  · simp only [POut.ok.injEq, Prod.mk.injEq] at h
    rw [← h.2, hl]
    rfl
  · simp at h

theorem parse_version_rem {l : List Nat} {v : Nat × Nat} {r : List Nat}
    (h : parse_version l = .ok (v, r)) : r = l.drop 4 := by
  obtain ⟨⟨minor, l1⟩, hm, h⟩ := POut.bind_eq_ok h
  dsimp only at h
  obtain ⟨⟨major, l2⟩, hj, h⟩ := POut.bind_eq_ok h
  dsimp only at h
  obtain ⟨b0, b1, hl1, _⟩ := read_u16_eq_ok hm
  obtain ⟨b2, b3, hl2, _⟩ := read_u16_eq_ok hj
  simp only [POut.ok.injEq, Prod.mk.injEq] at h
  rw [← h.2, hl1, hl2]
  rfl

/-- C7, amended part (a): a successful parse implies the input begins with
`CA FE BA BE`. -/
theorem parse_ok_magic {l : List Nat} {cf : ClassFile} {rest : List Nat}
    (h : parse l = .ok (cf, rest)) (hwf : ∀ b ∈ l, b < 256) :
    magic_bytes.isPrefixOf l := by
  unfold parse at h
  obtain ⟨⟨u, l1⟩, hm, h⟩ := POut.bind_eq_ok h
  unfold parse_magic_identifier at hm
  obtain ⟨⟨m, l1'⟩, hr, hm⟩ := POut.bind_eq_ok hm
  dsimp only at hm
  obtain ⟨b0, b1, b2, b3, hl, hv⟩ := read_u32_eq_ok hr
  split at hm
  · rename_i hmagic
    subst hl
    have h0 : b0 < 256 := hwf b0 (by simp)
    have h1 : b1 < 256 := hwf b1 (by simp)
    have h2 : b2 < 256 := hwf b2 (by simp)
    have h3 : b3 < 256 := hwf b3 (by simp)
    have : b0 = 0xCA ∧ b1 = 0xFE ∧ b2 = 0xBA ∧ b3 = 0xBE := by omega
    obtain ⟨rfl, rfl, rfl, rfl⟩ := this
    simp [magic_bytes, List.isPrefixOf]
  · simp at hm

end ClassFile

namespace ClassFile

/-- C7, amended: `parse(bytes)` succeeds only if the bytes begin with the
magic `CA FE BA BE`; and when the first four bytes are present but their
big-endian value differs from `0xCAFEBABE`, it fails with
`InvalidMagicIdentifier` carrying that value.  (The stated "iff" fails:
see `claim_C7_cex`.) -/
theorem claim_C7 :
    (∀ l cf rest, parse l = .ok (cf, rest) → (∀ b ∈ l, b < 256) →
      magic_bytes.isPrefixOf l) ∧
    (∀ b0 b1 b2 b3 rest,
      ((b0 * 0x100 + b1) * 0x100 + b2) * 0x100 + b3 ≠ 0xCAFEBABE →
      parse (b0 :: b1 :: b2 :: b3 :: rest) =
        .error (.invalidMagicIdentifier
          (((b0 * 0x100 + b1) * 0x100 + b2) * 0x100 + b3))) := by
  constructor
  · exact fun l cf rest h hwf => parse_ok_magic h hwf
  · intro b0 b1 b2 b3 rest hne
    simp only [parse, parse_magic_identifier, read_u32, read_u8, POut.bind_ok]
    rw [if_neg hne]
    rfl

/-- C7 counterexample: `c7cexb` begins with the magic and is rejected with
`InvalidCpInfoTag(2)`, not an end-of-stream `IOError`, so "succeeds iff
magic and all lengths fit" is false as stated. -/
theorem claim_C7_cex : ¬ C7Prop := by
  intro h
  have h2 := h c7cexb (by decide)
  revert h2
  decide

/-- Witness for C7 at a concrete input: the successfully parsed `c4b`
begins with the magic bytes. -/
theorem claim_C7_witness : magic_bytes.isPrefixOf c4b :=
  claim_C7.1 c4b c4cf [] (by decide) (by decide)

end ClassFile

namespace ClassFile

theorem parse_utf8_shape {l : List Nat} {c : CpInfo} {r : List Nat}
    (h : parse_utf8 l = .ok (c, r)) : ∃ bs, c = .utf8 bs := by
  obtain ⟨⟨len, l1⟩, _, h⟩ := POut.bind_eq_ok h
  dsimp only at h
  obtain ⟨⟨bs, l2⟩, _, h⟩ := POut.bind_eq_ok h
  dsimp only at h
  simp only [POut.ok.injEq, Prod.mk.injEq] at h
  exact ⟨bs, h.1.symm⟩

theorem parse_integer_shape {l : List Nat} {c : CpInfo} {r : List Nat}
    (h : parse_integer l = .ok (c, r)) : ∃ v, c = .integer v := by
  obtain ⟨⟨v, l1⟩, _, h⟩ := POut.bind_eq_ok h
  dsimp only at h
  simp only [POut.ok.injEq, Prod.mk.injEq] at h
  exact ⟨v, h.1.symm⟩

theorem parse_float_shape {l : List Nat} {c : CpInfo} {r : List Nat}
    (h : parse_float l = .ok (c, r)) : ∃ s e m, c = .float s e m := by
  obtain ⟨⟨bits, l1⟩, _, h⟩ := POut.bind_eq_ok h
  dsimp only at h
  split_ifs at h
  all_goals first
  | exact POut.noConfusion h
  | (simp only [POut.ok.injEq, Prod.mk.injEq] at h
     exact ⟨_, _, _, h.1.symm⟩)

theorem parse_class_info_shape {l : List Nat} {c : CpInfo} {r : List Nat}
    (h : parse_class_info l = .ok (c, r)) : ∃ n, c = .classInfo n := by
  obtain ⟨⟨n, l1⟩, _, h⟩ := POut.bind_eq_ok h
  dsimp only at h
  simp only [POut.ok.injEq, Prod.mk.injEq] at h
  exact ⟨n, h.1.symm⟩

theorem parse_string_shape {l : List Nat} {c : CpInfo} {r : List Nat}
    (h : parse_string l = .ok (c, r)) : ∃ n, c = .stringRef n := by
  obtain ⟨⟨n, l1⟩, _, h⟩ := POut.bind_eq_ok h
  dsimp only at h
  simp only [POut.ok.injEq, Prod.mk.injEq] at h
  exact ⟨n, h.1.symm⟩

theorem parse_name_and_type_info_shape {l : List Nat} {c : CpInfo} {r : List Nat}
    (h : parse_name_and_type_info l = .ok (c, r)) : ∃ n d, c = .nameAndType n d := by
  obtain ⟨⟨n, l1⟩, _, h⟩ := POut.bind_eq_ok h
  dsimp only at h
  obtain ⟨⟨d, l2⟩, _, h⟩ := POut.bind_eq_ok h
  dsimp only at h
  simp only [POut.ok.injEq, Prod.mk.injEq] at h
  exact ⟨n, d, h.1.symm⟩

theorem parse_method_handle_shape {l : List Nat} {c : CpInfo} {r : List Nat}
    (h : parse_method_handle l = .ok (c, r)) : ∃ k n, c = .methodHandle k n := by
  obtain ⟨⟨k, l1⟩, _, h⟩ := POut.bind_eq_ok h
  dsimp only at h
  obtain ⟨⟨n, l2⟩, _, h⟩ := POut.bind_eq_ok h
  dsimp only at h
  simp only [POut.ok.injEq, Prod.mk.injEq] at h
  exact ⟨k, n, h.1.symm⟩

theorem parse_method_type_info_shape {l : List Nat} {c : CpInfo} {r : List Nat}
    (h : parse_method_type_info l = .ok (c, r)) : ∃ d, c = .methodType d := by
  obtain ⟨⟨d, l1⟩, _, h⟩ := POut.bind_eq_ok h
  dsimp only at h
  simp only [POut.ok.injEq, Prod.mk.injEq] at h
  exact ⟨d, h.1.symm⟩

theorem parse_invoke_dynamic_info_shape {l : List Nat} {c : CpInfo} {r : List Nat}
    (h : parse_invoke_dynamic_info l = .ok (c, r)) : ∃ b n, c = .invokeDynamic b n := by
  obtain ⟨⟨b, l1⟩, _, h⟩ := POut.bind_eq_ok h
  dsimp only at h
  obtain ⟨⟨n, l2⟩, _, h⟩ := POut.bind_eq_ok h
  dsimp only at h
  simp only [POut.ok.injEq, Prod.mk.injEq] at h
  exact ⟨b, n, h.1.symm⟩

/-- A slot-1 entry produced by `parse_cp_info` is never a `Long`: only
tag 5 produces `Long`, and it comes with slot size 2. -/
theorem parse_cp_info_slot_one {l : List Nat} {c : CpInfo} {r : List Nat}
    (h : parse_cp_info l = .ok ((c, 1), r)) (v : Int) : c ≠ .long v := by
  intro hv
  subst hv
  obtain ⟨⟨tag, l1⟩, _, h⟩ := POut.bind_eq_ok h
  dsimp only at h
  split at h
  case _ => -- tag 1
    obtain ⟨⟨c1, l2⟩, hX, h⟩ := POut.bind_eq_ok h
    dsimp only at h
    simp only [POut.ok.injEq, Prod.mk.injEq] at h
    obtain ⟨bs, rfl⟩ := parse_utf8_shape hX
    simp at h
  case _ =>
    obtain ⟨⟨c1, l2⟩, hX, h⟩ := POut.bind_eq_ok h
    dsimp only at h
    simp only [POut.ok.injEq, Prod.mk.injEq] at h
    obtain ⟨v1, rfl⟩ := parse_integer_shape hX
    simp at h
  case _ =>
    obtain ⟨⟨c1, l2⟩, hX, h⟩ := POut.bind_eq_ok h
    dsimp only at h
    simp only [POut.ok.injEq, Prod.mk.injEq] at h
    obtain ⟨s1, e1, m1, rfl⟩ := parse_float_shape hX
    simp at h
  case _ => -- tag 5: slot size 2
    obtain ⟨⟨c1, l2⟩, hX, h⟩ := POut.bind_eq_ok h
    dsimp only at h
    simp at h
  case _ =>
    obtain ⟨⟨c1, l2⟩, hX, h⟩ := POut.bind_eq_ok h
    dsimp only at h
    simp only [POut.ok.injEq, Prod.mk.injEq] at h
    obtain ⟨n1, rfl⟩ := parse_class_info_shape hX
    simp at h
  case _ =>
    obtain ⟨⟨c1, l2⟩, hX, h⟩ := POut.bind_eq_ok h
    dsimp only at h
    simp only [POut.ok.injEq, Prod.mk.injEq] at h
    obtain ⟨n1, rfl⟩ := parse_string_shape hX
    simp at h
  case _ =>
    obtain ⟨⟨c1, l2⟩, hX, h⟩ := POut.bind_eq_ok h
    dsimp only at h
    simp at h
  case _ =>
    obtain ⟨⟨c1, l2⟩, hX, h⟩ := POut.bind_eq_ok h
    dsimp only at h
    simp at h
  case _ =>
    obtain ⟨⟨c1, l2⟩, hX, h⟩ := POut.bind_eq_ok h
    dsimp only at h
    simp at h
  case _ =>
    obtain ⟨⟨c1, l2⟩, hX, h⟩ := POut.bind_eq_ok h
    dsimp only at h
    simp only [POut.ok.injEq, Prod.mk.injEq] at h
    obtain ⟨n1, d1, rfl⟩ := parse_name_and_type_info_shape hX
    simp at h
  case _ =>
    obtain ⟨⟨c1, l2⟩, hX, h⟩ := POut.bind_eq_ok h
    dsimp only at h
    simp only [POut.ok.injEq, Prod.mk.injEq] at h
    obtain ⟨k1, n1, rfl⟩ := parse_method_handle_shape hX
    simp at h
  case _ =>
    obtain ⟨⟨c1, l2⟩, hX, h⟩ := POut.bind_eq_ok h
    dsimp only at h
    simp only [POut.ok.injEq, Prod.mk.injEq] at h
    obtain ⟨d1, rfl⟩ := parse_method_type_info_shape hX
    simp at h
  case _ =>
    obtain ⟨⟨c1, l2⟩, hX, h⟩ := POut.bind_eq_ok h
    dsimp only at h
    simp only [POut.ok.injEq, Prod.mk.injEq] at h
    obtain ⟨b1, n1, rfl⟩ := parse_invoke_dynamic_info_shape hX
    simp at h
  case _ =>
    simp at h

end ClassFile

namespace ClassFile

/-- The `while` loop of `parse_constant_pool` fills exactly `count`
slots. -/
theorem parse_cp_entries_length :
    ∀ count (l : List Nat) res r, parse_cp_entries count l = .ok (res, r) →
      res.length = count := by
  intro count
  induction count using Nat.strong_induction_on with
  | _ count ih =>
    intro l res r h
    cases count with
    | zero =>
      simp only [parse_cp_entries, POut.ok.injEq, Prod.mk.injEq] at h
      simp [← h.1]
    | succ n =>
      rw [parse_cp_entries] at h
      rcases hpi : parse_cp_info l with _ | e | ⟨⟨info, slot⟩, l1⟩ <;> rw [hpi] at h <;>
        dsimp only at h
      · exact POut.noConfusion h
      · exact POut.noConfusion h
      · split_ifs at h with h1 h2
        · obtain ⟨⟨rest, l2⟩, hrec, h⟩ := POut.bind_eq_ok h
          dsimp only at h
          simp only [POut.ok.injEq, Prod.mk.injEq] at h
          obtain ⟨hres, -⟩ := h
          subst hres
          simp [ih n (by omega) l1 rest l2 hrec]
        · cases n with
          | zero => exact POut.noConfusion h
          | succ n1 =>
            obtain ⟨⟨rest, l2⟩, hrec, h⟩ := POut.bind_eq_ok h
            dsimp only at h
            simp only [POut.ok.injEq, Prod.mk.injEq] at h
            obtain ⟨hres, -⟩ := h
            subst hres
            simp [ih n1 (by omega) l1 rest l2 hrec]

/-- Every `Long` slot the pool loop produces is immediately followed by an
`Unusable` sentinel. -/
theorem parse_cp_entries_long_unusable :
    ∀ count (l : List Nat) res r, parse_cp_entries count l = .ok (res, r) →
      ∀ i (v : Int), res[i]? = some (.long v) → res[i + 1]? = some .unusable := by
  intro count
  induction count using Nat.strong_induction_on with
  | _ count ih =>
    intro l res r h i v hi
    cases count with
    | zero =>
      simp only [parse_cp_entries, POut.ok.injEq, Prod.mk.injEq] at h
      rw [← h.1] at hi
      simp at hi
    | succ n =>
      rw [parse_cp_entries] at h
      rcases hpi : parse_cp_info l with _ | e | ⟨⟨info, slot⟩, l1⟩ <;> rw [hpi] at h <;>
        dsimp only at h
      · exact POut.noConfusion h
      · exact POut.noConfusion h
      · split_ifs at h with h1 h2
        · obtain ⟨⟨rest, l2⟩, hrec, h⟩ := POut.bind_eq_ok h
          dsimp only at h
          simp only [POut.ok.injEq, Prod.mk.injEq] at h
          obtain ⟨hres, -⟩ := h
          subst hres
          cases i with
          | zero =>
            simp only [List.getElem?_cons_zero, Option.some.injEq] at hi
            subst h1
            exact absurd hi (parse_cp_info_slot_one hpi v)
          | succ j =>
            simp only [List.getElem?_cons_succ] at hi ⊢
            exact ih n (by omega) l1 rest l2 hrec j v hi
        · cases n with
          | zero => exact POut.noConfusion h
          | succ n1 =>
            obtain ⟨⟨rest, l2⟩, hrec, h⟩ := POut.bind_eq_ok h
            dsimp only at h
            simp only [POut.ok.injEq, Prod.mk.injEq] at h
            obtain ⟨hres, -⟩ := h
            subst hres
            match i, hi with
            | 0, hi => simp
            | 1, hi => simp at hi
            | j + 2, hi =>
              simp only [List.getElem?_cons_succ] at hi ⊢
              exact ih n1 (by omega) l1 rest l2 hrec j v hi

/-- Glue: a successful `parse` goes through `parse_constant_pool` on
`l.drop 8`, whose entry list is the parsed classfile's pool. -/
theorem parse_ok_constant_pool {l : List Nat} {cf : ClassFile} {rest : List Nat}
    (h : parse l = .ok (cf, rest)) :
    ∃ cnt l2 l3, read_u16 (l.drop 8) = .ok (cnt, l2) ∧ 0 < cnt ∧
      parse_cp_entries (cnt - 1) l2 = .ok (cf.constant_pool.cp_infos, l3) := by
  unfold parse at h
  obtain ⟨⟨u, l1⟩, hm, h⟩ := POut.bind_eq_ok h
  dsimp only at h
  obtain ⟨⟨ver, l2⟩, hv, h⟩ := POut.bind_eq_ok h
  dsimp only at h
  obtain ⟨⟨cp, l3⟩, hp, h⟩ := POut.bind_eq_ok h
  dsimp only at h
  obtain ⟨⟨fl, l4⟩, _, h⟩ := POut.bind_eq_ok h
  dsimp only at h
  obtain ⟨⟨tc, l5⟩, _, h⟩ := POut.bind_eq_ok h
  dsimp only at h
  obtain ⟨⟨sc, l6⟩, _, h⟩ := POut.bind_eq_ok h
  dsimp only at h
  obtain ⟨⟨ic, l7⟩, _, h⟩ := POut.bind_eq_ok h
  dsimp only at h
  obtain ⟨⟨ifs, l8⟩, _, h⟩ := POut.bind_eq_ok h
  dsimp only at h
  obtain ⟨⟨fc, l9⟩, _, h⟩ := POut.bind_eq_ok h
  dsimp only at h
  obtain ⟨⟨fs, l10⟩, _, h⟩ := POut.bind_eq_ok h
  dsimp only at h
  obtain ⟨⟨mc, l11⟩, _, h⟩ := POut.bind_eq_ok h
  dsimp only at h
  obtain ⟨⟨ms, l12⟩, _, h⟩ := POut.bind_eq_ok h
  dsimp only at h
  obtain ⟨⟨ac, l13⟩, _, h⟩ := POut.bind_eq_ok h
  dsimp only at h
  obtain ⟨⟨ats, l14⟩, _, h⟩ := POut.bind_eq_ok h
  dsimp only at h
  simp only [POut.ok.injEq, Prod.mk.injEq] at h
  have hcp : cf.constant_pool = cp := by rw [← h.1]
  -- invert parse_constant_pool
  unfold parse_constant_pool at hp
  obtain ⟨⟨cnt, l2'⟩, hr, hp⟩ := POut.bind_eq_ok hp
  dsimp only at hp
  cases cnt with
  | zero => exact POut.noConfusion hp
  | succ n =>
    obtain ⟨⟨infos, l3'⟩, hent, hp⟩ := POut.bind_eq_ok hp
    dsimp only at hp
    simp only [POut.ok.injEq, Prod.mk.injEq] at hp
    refine ⟨n + 1, l2', l3', ?_, by omega, ?_⟩
    · have h48 : l2 = l.drop 8 := by
        rw [parse_version_rem hv, parse_magic_identifier_rem hm, List.drop_drop]
      rw [← h48]
      exact hr
    · simp only [Nat.add_sub_cancel]
      rw [hcp, ← hp.1]
      exact hent

end ClassFile

namespace ClassFile

/-- C6: for every successfully parsed classfile, (i) the pool holds exactly
`constant_pool_count - 1` slots, (ii) every `Long` slot is immediately
followed by an `Unusable` sentinel, (iii) dereferencing an `Unusable` slot
through an accessor yields `UnexpectedConstantPoolEntry`, never the entry
itself (pool index `j + 1` addresses `cp_infos[j]`), and (iv) the attribute
lookup skips attributes whose name entry is `Unusable`. -/
theorem claim_C6 (l : List Nat) (cf : ClassFile) (rest : List Nat)
    (h : parse l = .ok (cf, rest)) :
    (∃ cnt l2, read_u16 (l.drop 8) = .ok (cnt, l2) ∧ 0 < cnt ∧
      cf.constant_pool.cp_infos.length = cnt - 1) ∧
    (∀ i (v : Int), cf.constant_pool.cp_infos[i]? = some (.long v) →
      cf.constant_pool.cp_infos[i + 1]? = some .unusable) ∧
    (∀ j, cf.constant_pool.cp_infos[j]? = some .unusable →
      match_class cf.constant_pool (j + 1) =
        .error (.unexpectedConstantPoolEntry "Class" .unusable) ∧
      match_utf8 cf.constant_pool (j + 1) =
        .error (.unexpectedConstantPoolEntry "Utf8" .unusable)) ∧
    (∀ (name : List Nat) (a : Attribute) (rest1 : List Attribute),
      cp_get cf.constant_pool a.attribute_name_index = .ok .unusable →
      find_by_name cf.constant_pool (a :: rest1) name =
        find_by_name cf.constant_pool rest1 name) := by
  obtain ⟨cnt, l2, l3, hr, hpos, hent⟩ := parse_ok_constant_pool h
  refine ⟨⟨cnt, l2, hr, hpos, parse_cp_entries_length _ _ _ _ hent⟩,
    fun i v hi => parse_cp_entries_long_unusable _ _ _ _ hent i v hi,
    fun j hj => ?_, fun name a rest1 hcp => ?_⟩
  · have hg : cp_get cf.constant_pool (j + 1) = .ok .unusable := by
      simp [cp_get, hj]
    constructor
    · simp [match_class, hg]
    · simp [match_utf8, hg]
  · rw [find_by_name, hcp]

/-- Witness for C6 at a concrete input: in the parsed `c6b`, the `Long`
entry at slot 0 is followed by the `Unusable` sentinel. -/
theorem claim_C6_witness : c6cf.constant_pool.cp_infos[0 + 1]? = some CpInfo.unusable :=
  (claim_C6 c6b c6cf [] (by decide)).2.1 0 0 (by decide)

end ClassFile

/-! ## Claim theorems: the archive decoder -/

namespace JImage

theorem read_value_acc_ok :
    ∀ n (acc : Nat) (l : List Nat), n ≤ l.length →
      read_value_acc n acc l =
        .ok ((l.take n).foldl (fun a b => (a <<< 8) % 2 ^ 64 ||| b) acc, l.drop n) := by
  intro n
  induction n with
  | zero => intro acc l _; simp [read_value_acc]
  | succ m ih =>
    intro acc l hn
    cases l with
    | nil => simp at hn
    | cons b t =>
      simp only [read_value_acc, read_u8, POut.bind_ok, List.take_succ_cons,
        List.drop_succ_cons, List.foldl_cons]
      exact ih _ t (by simpa using hn)

theorem read_value_acc_short :
    ∀ n (acc : Nat) (l : List Nat), l.length < n →
      read_value_acc n acc l = .error .ioError := by
  intro n
  induction n with
  | zero => intro acc l h; simp at h
  | succ m ih =>
    intro acc l hn
    cases l with
    | nil => rfl
    | cons b t =>
      simp only [read_value_acc, read_u8, POut.bind_ok]
      exact ih _ t (by simpa using hn)

theorem AttrArray.get_zero (k : AttributeKind) : AttrArray.zero.get k = 0 := by
  cases k <;> rfl

theorem AttrArray.get_set_self (a : AttrArray) (k : AttributeKind) (v : Nat) :
    (a.set k v).get k = v := by
  cases k <;> rfl

theorem AttrArray.get_set_ne (a : AttrArray) (k k' : AttributeKind) (v : Nat)
    (h : k ≠ k') : (a.set k v).get k' = a.get k' := by
  cases k <;> cases k' <;> simp_all [AttrArray.set, AttrArray.get]

/-- The record loop is the fold of the record list over the zero-filled
array. -/
theorem parse_attributes_go_eq_records :
    ∀ fuel (l : List Nat) (acc : AttrArray),
      parse_attributes_go fuel l acc =
        (attr_records fuel l).bind fun recs =>
          .ok (recs.foldl (fun a kv => a.set kv.1 kv.2) acc) := by
  intro fuel
  induction fuel with
  | zero => intro l acc; rfl
  | succ m ih =>
    intro l acc
    rw [parse_attributes_go, attr_records]
    rcases hpa : parse_attribute l with _ | e | ⟨okv, rest⟩
    · rfl
    · rfl
    · cases okv with
      | none => rfl
      | some kv =>
        obtain ⟨k, v⟩ := kv
        dsimp only
        rw [ih]
        cases attr_records m rest <;> simp

/-- Accumulating a record list whose kinds all differ from `k` leaves slot
`k` unchanged. -/
theorem foldl_set_get_of_not_mem :
    ∀ (recs : List (AttributeKind × Nat)) (b : AttrArray) (k : AttributeKind),
      (∀ kv ∈ recs, kv.1 ≠ k) →
      (recs.foldl (fun a kv => a.set kv.1 kv.2) b).get k = b.get k := by
  intro recs
  induction recs with
  | nil => intro b k _; rfl
  | cons kv rest ih =>
    intro b k hne
    simp only [List.foldl_cons]
    rw [ih _ k fun kv2 h2 => hne kv2 (by simp [h2])]
    exact AttrArray.get_set_ne _ _ _ _ (hne kv (by simp))

/-- C5: one attribute record reads a header byte; `kind = header >> 3`
terminates the stream when 0, maps 1..7 to the seven kinds, and fails with
`InvalidAttributeKind(kind)` otherwise; exactly `(header & 7) + 1`
following bytes are packed high byte first into a `u64`; the decoded
per-resource array starts all zero and the last occurrence of a kind
wins. -/
theorem claim_C5 :
    (parse_attribute [] = .error .ioError) ∧
    (∀ b (rest : List Nat), b >>> 3 = 0 → parse_attribute (b :: rest) = .ok (none, rest)) ∧
    (∀ b (rest : List Nat) k, AttributeKind.try_from (b >>> 3) = some k →
      ((b &&& 0x7) + 1 ≤ rest.length →
        parse_attribute (b :: rest) =
          .ok (some (k, msbValue (rest.take ((b &&& 0x7) + 1))),
            rest.drop ((b &&& 0x7) + 1))) ∧
      (rest.length < (b &&& 0x7) + 1 →
        parse_attribute (b :: rest) = .error .ioError)) ∧
    (∀ b (rest : List Nat), b >>> 3 ≠ 0 → AttributeKind.try_from (b >>> 3) = none →
      parse_attribute (b :: rest) = .error (.invalidAttributeKind (b >>> 3))) ∧
    (AttributeKind.try_from 0 = none ∧ AttributeKind.try_from 1 = some .module ∧
      AttributeKind.try_from 2 = some .parent ∧ AttributeKind.try_from 3 = some .base ∧
      AttributeKind.try_from 4 = some .extension ∧ AttributeKind.try_from 5 = some .offset ∧
      AttributeKind.try_from 6 = some .compressed ∧
      AttributeKind.try_from 7 = some .uncompressed ∧
      ∀ v, 8 ≤ v → AttributeKind.try_from v = none) ∧
    (∀ l : List Nat, parse_attributes l =
      (attr_records (l.length + 1) l).bind fun recs =>
        .ok (recs.foldl (fun a kv => a.set kv.1 kv.2) AttrArray.zero)) ∧
    (∀ (recs : List (AttributeKind × Nat)) k, (∀ kv ∈ recs, kv.1 ≠ k) →
      (recs.foldl (fun a kv => a.set kv.1 kv.2) AttrArray.zero).get k = 0) ∧
    (∀ (recs1 recs2 : List (AttributeKind × Nat)) k v, (∀ kv ∈ recs2, kv.1 ≠ k) →
      (((recs1 ++ (k, v) :: recs2).foldl (fun a kv => a.set kv.1 kv.2)
        AttrArray.zero)).get k = v) := by
  refine ⟨rfl, ?_, ?_, ?_, ?_, ?_, ?_, ?_⟩
  · intro b rest h0
    simp [parse_attribute, read_u8, h0]
  · intro b rest k hk
    have h0 : ¬ b >>> 3 = 0 := by
      intro h
      rw [h] at hk
      exact Option.noConfusion hk
    constructor
    · intro hlen
      simp only [parse_attribute, read_u8, POut.bind_ok, if_neg h0, hk,
        read_value_acc_ok _ 0 rest hlen, POut.bind_ok]
      rfl
    · intro hlen
      simp only [parse_attribute, read_u8, POut.bind_ok, if_neg h0, hk,
        read_value_acc_short _ 0 rest hlen]
      rfl
  · intro b rest h0 hnone
    simp [parse_attribute, read_u8, if_neg h0, hnone]
  · refine ⟨rfl, rfl, rfl, rfl, rfl, rfl, rfl, rfl, ?_⟩
    intro v hv
    simp only [AttributeKind.try_from]
    repeat (rcases v with _ | v; · omega)
    rfl
  · intro l
    exact parse_attributes_go_eq_records _ l AttrArray.zero
  · intro recs k h
    rw [foldl_set_get_of_not_mem recs AttrArray.zero k h]
    exact AttrArray.get_zero k
  · intro recs1 recs2 k v h
    rw [List.foldl_append, List.foldl_cons,
      foldl_set_get_of_not_mem recs2 _ k h]
    exact AttrArray.get_set_self _ k v

/-- Witness for C5 at the source's own unit-test input
`[0x22, 0x03, 0x35, 0x62]`: kind `4` (Extension), 3 value bytes,
value `0x33562`. -/
theorem claim_C5_witness :
    parse_attribute [0x22, 0x03, 0x35, 0x62] =
      .ok (some (AttributeKind.extension, 0x33562), []) := by
  have h := (claim_C5.2.2.1 0x22 [0x03, 0x35, 0x62] AttributeKind.extension
    (by decide)).1 (by decide)
  rw [h]
  decide

end JImage

theorem strLen_nil : strLen [] = 0 := rfl

theorem strLen_cons (c : Char) (s : List Char) :
    strLen (c :: s) = c.utf8Size + strLen s := by
  simp [strLen]

theorem strLen_eq_length_of_ascii (s : List Char) (h : ∀ c ∈ s, c.utf8Size = 1) :
    strLen s = s.length := by
  induction s with
  | nil => rfl
  | cons c cs ih =>
    simp only [strLen_cons, List.length_cons, h c (List.mem_cons_self c cs),
      ih fun c2 h2 => h c2 (List.mem_cons_of_mem c h2)]
    omega

theorem strLen_eq_zero_iff (s : List Char) : strLen s = 0 ↔ s = [] := by
  cases s with
  | nil => simp [strLen_nil]
  | cons c cs =>
    simp only [strLen_cons]
    have := Char.utf8Size_pos c
    simp only [List.cons_ne_nil, iff_false]
    omega

/-- Dropping the bytes of `s` off `s ++ t` lands exactly on `t` (shifted by
`k` more bytes). -/
theorem byteDrop_str_append : ∀ (s t : List Char) (k : Nat),
    byteDrop (strLen s + k) (s ++ t) = byteDrop k t := by
  intro s
  induction s with
  | nil => intro t k; simp [strLen_nil]
  | cons c cs ih =>
    intro t k
    have hpos : 0 < c.utf8Size := Char.utf8Size_pos c
    have hm : strLen (c :: cs) + k = (c.utf8Size + strLen cs + k - 1) + 1 := by
      rw [strLen_cons]; omega
    rw [List.cons_append, hm, byteDrop]
    rw [if_pos (by omega)]
    have h2 : c.utf8Size + strLen cs + k - 1 + 1 - c.utf8Size = strLen cs + k := by omega
    rw [h2]
    exact ih t k

theorem byteDrop_zero (s : List Char) : byteDrop 0 s = some s := by
  cases s <;> rfl

theorem byteDrop_one_cons (c : Char) (s : List Char) (h : c.utf8Size = 1) :
    byteDrop 1 (c :: s) = some s := by
  rw [byteDrop, if_pos (by omega : c.utf8Size ≤ 0 + 1), h]
  exact byteDrop_zero s

namespace JImage

theorem verify_module_nil (path : List Char) :
    verify_module [] path = .ok (some path) := by
  simp [verify_module]

theorem verify_module_pos (m rest : List Char) (hne : m ≠ [])
    (ha : ∀ c ∈ m, c.utf8Size = 1) :
    verify_module m ('/' :: (m ++ '/' :: rest)) = .ok (some rest) := by
  have hlen : strLen m = m.length := strLen_eq_length_of_ascii m ha
  have hnth : ('/' :: (m ++ '/' :: rest))[1 + strLen m]? = some '/' := by
    rw [hlen, Nat.add_comm, List.getElem?_cons_succ,
      List.getElem?_append_right (Nat.le_refl _), Nat.sub_self]
    simp
  have hpre : m.isPrefixOf (m ++ '/' :: rest) = true := by
    rw [List.isPrefixOf_iff_prefix]
    exact List.prefix_append m _
  have hdrop : byteDrop (2 + strLen m) ('/' :: (m ++ '/' :: rest)) = some rest := by
    have h3 := byteDrop_str_append ('/' :: m) ('/' :: rest) 1
    rw [show ('/' :: m) ++ '/' :: rest = '/' :: (m ++ '/' :: rest) by simp] at h3
    rw [show 2 + strLen m = strLen ('/' :: m) + 1 by
      rw [strLen_cons, show ('/' : Char).utf8Size = 1 from by decide]; omega]
    rw [h3]
    exact byteDrop_one_cons _ _ (by decide)
  simp only [verify_module, gt_iff_lt, List.length_pos.mpr hne, if_true]
  rw [if_neg (fun h2 => h2 (by simp)), byteDrop_one_cons '/' _ (by decide)]
  dsimp only
  rw [if_neg (fun h2 => h2 hpre), if_neg (fun h2 => h2 hnth), hdrop]

theorem verify_parent_nil (path : List Char) :
    verify_parent [] path = .ok (some path) := by
  simp [verify_parent]

theorem verify_parent_pos (p rest : List Char) (hne : p ≠ [])
    (ha : ∀ c ∈ p, c.utf8Size = 1) :
    verify_parent p (p ++ '/' :: rest) = .ok (some rest) := by
  have hlen : strLen p = p.length := strLen_eq_length_of_ascii p ha
  have hnth : (p ++ '/' :: rest)[strLen p]? = some '/' := by
    rw [hlen, List.getElem?_append_right (Nat.le_refl _), Nat.sub_self]
    simp
  have hpre : p.isPrefixOf (p ++ '/' :: rest) = true := by
    rw [List.isPrefixOf_iff_prefix]
    exact List.prefix_append p _
  have hdrop : byteDrop (1 + strLen p) (p ++ '/' :: rest) = some rest := by
    rw [Nat.add_comm, byteDrop_str_append]
    exact byteDrop_one_cons _ _ (by decide)
  simp only [verify_parent, gt_iff_lt, List.length_pos.mpr hne, if_true]
  rw [if_neg (fun h2 => h2 hpre), if_neg (fun h2 => h2 hnth), hdrop]

theorem verify_base_app (b rest : List Char) :
    verify_base b (b ++ rest) = .ok (some rest) := by
  have hpre : b.isPrefixOf (b ++ rest) = true := by
    rw [List.isPrefixOf_iff_prefix]
    exact List.prefix_append b rest
  have hdrop : byteDrop (strLen b) (b ++ rest) = some rest := by
    have h3 := byteDrop_str_append b rest 0
    rw [Nat.add_zero] at h3
    exact h3.trans (byteDrop_zero rest)
  simp only [verify_base]
  rw [if_neg (fun h2 => h2 hpre), hdrop]

theorem verify_ext_nil (path : List Char) :
    verify_ext [] path = .ok (some path) := by
  simp [verify_ext]

theorem verify_ext_pos (e : List Char) (hne : e ≠ []) :
    verify_ext e ('.' :: e) = .ok (some []) := by
  have hpre : e.isPrefixOf e = true := by
    rw [List.isPrefixOf_iff_prefix]
  have hdrop : byteDrop (1 + strLen e) ('.' :: e) = some [] := by
    have h3 := byteDrop_str_append ('.' :: e) [] 0
    rw [List.append_nil] at h3
    rw [show 1 + strLen e = strLen ('.' :: e) + 0 by
      rw [strLen_cons, show ('.' : Char).utf8Size = 1 from by decide]; omega]
    exact h3.trans (byteDrop_zero [])
  simp only [verify_ext, gt_iff_lt, List.length_pos.mpr hne, if_true]
  rw [if_neg (fun h2 => h2 (by simp)), byteDrop_one_cons '.' _ (by decide)]
  dsimp only
  rw [if_neg (fun h2 => h2 hpre), hdrop]

/-- Chaining the four blocks of `verify`. -/
theorem verify_strings_steps {m p b e path p1 p2 p3 p4 : List Char}
    (h1 : verify_module m path = .ok (some p1))
    (h2 : verify_parent p p1 = .ok (some p2))
    (h3 : verify_base b p2 = .ok (some p3))
    (h4 : verify_ext e p3 = .ok (some p4)) :
    verify_strings m p b e path = .ok (decide (strLen p4 = 0)) := by
  unfold verify_strings
  rw [h1]
  dsimp only [PanicOr.ok_bind]
  rw [h2]
  dsimp only [PanicOr.ok_bind]
  rw [h3]
  dsimp only [PanicOr.ok_bind]
  rw [h4]
  dsimp only [PanicOr.ok_bind]

end JImage

namespace JImage

theorem verify_base_self (b : List Char) : verify_base b b = .ok (some []) := by
  have h := verify_base_app b []
  simpa using h

/-- Four successful blocks consuming the whole path verify to `true`. -/
theorem verify_strings_true {m p b e path p1 p2 p3 : List Char}
    (h1 : verify_module m path = .ok (some p1))
    (h2 : verify_parent p p1 = .ok (some p2))
    (h3 : verify_base b p2 = .ok (some p3))
    (h4 : verify_ext e p3 = .ok (some [])) :
    verify_strings m p b e path = .ok true := by
  have h := verify_strings_steps h1 h2 h3 h4
  simpa using h

/-- The round-trip at the heart of claims C2 and C3: a reconstructed full
name verifies against itself whenever the module and parent strings are
ASCII. -/
theorem verify_full_name_ascii (m p b e : List Char)
    (hm : ∀ c ∈ m, c.utf8Size = 1) (hp : ∀ c ∈ p, c.utf8Size = 1) :
    verify_strings m p b e (full_name_strings m p b e) = .ok true := by
  by_cases hm0 : m = [] <;> by_cases hp0 : p = [] <;> by_cases he0 : e = []
  · subst hm0; subst hp0; subst he0
    rw [show full_name_strings [] [] b [] = b by simp [full_name_strings]]
    exact verify_strings_true (verify_module_nil b) (verify_parent_nil b)
      (verify_base_self b) (verify_ext_nil [])
  · subst hm0; subst hp0
    rw [show full_name_strings [] [] b e = b ++ '.' :: e by
      simp [full_name_strings, he0]]
    exact verify_strings_true (verify_module_nil _) (verify_parent_nil _)
      (verify_base_app b _) (verify_ext_pos e he0)
  · subst hm0; subst he0
    rw [show full_name_strings [] p b [] = p ++ '/' :: b by
      simp [full_name_strings, hp0]]
    exact verify_strings_true (verify_module_nil _) (verify_parent_pos p _ hp0 hp)
      (verify_base_self b) (verify_ext_nil [])
  · subst hm0
    rw [show full_name_strings [] p b e = p ++ '/' :: (b ++ '.' :: e) by
      simp [full_name_strings, hp0, he0]]
    exact verify_strings_true (verify_module_nil _) (verify_parent_pos p _ hp0 hp)
      (verify_base_app b _) (verify_ext_pos e he0)
  · subst hp0; subst he0
    rw [show full_name_strings m [] b [] = '/' :: (m ++ '/' :: b) by
      simp [full_name_strings, hm0]]
    exact verify_strings_true (verify_module_pos m _ hm0 hm) (verify_parent_nil _)
      (verify_base_self b) (verify_ext_nil [])
  · subst hp0
    rw [show full_name_strings m [] b e = '/' :: (m ++ '/' :: (b ++ '.' :: e)) by
      simp [full_name_strings, hm0, he0]]
    exact verify_strings_true (verify_module_pos m _ hm0 hm) (verify_parent_nil _)
      (verify_base_app b _) (verify_ext_pos e he0)
  · subst he0
    rw [show full_name_strings m p b [] = '/' :: (m ++ '/' :: (p ++ '/' :: b)) by
      simp [full_name_strings, hm0, hp0]]
    exact verify_strings_true (verify_module_pos m _ hm0 hm)
      (verify_parent_pos p _ hp0 hp) (verify_base_self b) (verify_ext_nil [])
  · rw [show full_name_strings m p b e =
        '/' :: (m ++ '/' :: (p ++ '/' :: (b ++ '.' :: e))) by
      simp [full_name_strings, hm0, hp0, he0]]
    exact verify_strings_true (verify_module_pos m _ hm0 hm)
      (verify_parent_pos p _ hp0 hp) (verify_base_app b _) (verify_ext_pos e he0)

end JImage

namespace JImage

/-- C3, amended: when the module and parent strings are ASCII (every
character one UTF-8 byte), the reconstructed full name verifies against
itself.  (As stated over arbitrary strings the claim fails:
`claim_C3_cex`.) -/
theorem claim_C3 (m p b e : List Char)
    (hm : ∀ c ∈ m, c.utf8Size = 1) (hp : ∀ c ∈ p, c.utf8Size = 1) :
    verify_strings m p b e (full_name_strings m p b e) = .ok true :=
  verify_full_name_ascii m p b e hm hp

/-- C3 counterexample: with the two-byte module string "é" (and base "b"),
`verify` rejects the resource's own reconstructed full name "/é/b": the
source checks `path.chars().nth(1 + module.len())`, mixing a byte length
into a character position. -/
theorem claim_C3_cex :
    ¬ (∀ m p b e : List Char,
      verify_strings m p b e (full_name_strings m p b e) = .ok true) := by
  intro h
  exact absurd (h ['é'] [] ['b'] []) (by decide)

/-- Witness for C3 at a concrete input: module "j", parent "p", base "b",
extension "c" — the full name "/j/p/b.c" verifies. -/
theorem claim_C3_witness :
    verify_strings ['j'] ['p'] ['b'] ['c']
      (full_name_strings ['j'] ['p'] ['b'] ['c']) = .ok true :=
  claim_C3 ['j'] ['p'] ['b'] ['c'] (by decide) (by decide)

end JImage

namespace JImage

theorem hash_nonneg (data : List Nat) (seed : Int) : 0 ≤ hash data seed := by
  unfold hash
  exact Int.natCast_nonneg _

theorem i32ofNat_ne_zero {n : Nat} (h0 : 0 < n) (h32 : n < 2 ^ 32) :
    i32ofNat n ≠ 0 := by
  unfold i32ofNat
  rw [Nat.mod_eq_of_lt h32]
  split <;> omega

/-- For a non-negative dividend, Rust's `%` by an `i32`-cast table length
below `2^31 + 1` agrees with the mathematical `Nat` remainder. -/
theorem tmod_i32ofNat_toNat (h : Int) (hh0 : 0 ≤ h) (L : Nat) (hL : L ≤ 2 ^ 31) :
    (h.tmod (i32ofNat L)).toNat = h.toNat % L := by
  obtain ⟨n, rfl⟩ := Int.eq_ofNat_of_zero_le hh0
  have key : ∀ M : Nat, (Int.tmod n M).toNat = n % M := by
    intro M
    rw [Int.tmod_eq_emod (by positivity) (by positivity), ← Int.natCast_mod,
      Int.toNat_natCast]
  rcases Nat.lt_or_ge L (2 ^ 31) with hc | hc
  · have hL' : i32ofNat L = (L : Int) := by
      unfold i32ofNat
      rw [Nat.mod_eq_of_lt (by omega), if_pos (by omega)]
    rw [hL', key L, Int.toNat_natCast]
  · have hL31 : L = 2 ^ 31 := by omega
    subst hL31
    have hL' : i32ofNat (2 ^ 31) = -(2 ^ 31 : Int) := by decide
    rw [hL', Int.tmod_neg, show ((2 : Int) ^ 31) = ((2 ^ 31 : Nat) : Int) by norm_num,
      key (2 ^ 31), Int.toNat_natCast]

theorem redirect_pos_of_getElem {a : Archive} {i : Nat} {rv : Int}
    (hget : a.index.redirect_table[i]? = some rv) :
    0 < a.index.redirect_table.length := by
  apply Nat.pos_of_ne_zero
  intro h0
  rw [List.getElem?_eq_none (by omega)] at hget
  exact Option.noConfusion hget

/-- `by_name` when the dispatched redirect entry is zero: absent. -/
theorem by_name_zero (a : Archive) (p : List Char)
    (hlen : a.index.redirect_table.length < 2 ^ 32)
    (hget : a.index.redirect_table[((hash (strBytes p) HASH_MULTIPLIER).tmod
      (i32ofNat a.index.redirect_table.length)).toNat]? = some 0) :
    by_name a p = .ok none := by
  have hd : i32ofNat a.index.redirect_table.length ≠ 0 :=
    i32ofNat_ne_zero (redirect_pos_of_getElem hget) hlen
  unfold by_name
  dsimp only
  rw [if_neg hd, hget]
  dsimp only
  rw [if_pos rfl]

/-- `by_name` under a non-zero redirect entry dispatching to index `i`,
with an in-range attribute offset there: the result is decided by the
decode of the selected stream and by verification. -/
theorem by_name_resolved (a : Archive) (p : List Char) {rv : Int} {i off : Nat}
    (hlen : a.index.redirect_table.length < 2 ^ 32)
    (hget : a.index.redirect_table[((hash (strBytes p) HASH_MULTIPLIER).tmod
      (i32ofNat a.index.redirect_table.length)).toNat]? = some rv)
    (hrv : rv ≠ 0)
    (hi : (if rv > 0 then
        (hash (strBytes p) rv).tmod (i32ofNat a.index.redirect_table.length)
      else -1 - rv).toNat = i)
    (hoff : a.index.attribute_offsets[i]? = some off)
    (hoffle : off ≤ a.index.attribute_data.length) :
    by_name a p =
      match parse_attributes (a.index.attribute_data.drop off) with
      | .panic => .panic
      | .error _ => .ok none
      | .ok attributes => (verify a attributes p).bind fun ok =>
          if ok then .ok (some attributes) else .ok none := by
  have hd : i32ofNat a.index.redirect_table.length ≠ 0 :=
    i32ofNat_ne_zero (redirect_pos_of_getElem hget) hlen
  unfold by_name
  dsimp only
  rw [if_neg hd, hget]
  dsimp only
  rw [if_neg hrv, hi, hoff]
  dsimp only
  rw [if_pos hoffle]

end JImage

namespace JImage

/-- C1, amended: for archives whose redirect table has at most `2^31`
buckets, `by_name` follows exactly the two-step perfect-hash lookup of the
claim.  (Beyond `2^31` buckets the `table_length as i32` cast diverges
from `h mod table_length`: `claim_C1_cex`.) -/
theorem claim_C1 (a : Archive) (p : List Char)
    (hlen : a.index.redirect_table.length ≤ 2 ^ 31) : C1Prop a p := by
  unfold C1Prop
  intro r hget
  have hget' : a.index.redirect_table[((hash (strBytes p) HASH_MULTIPLIER).tmod
      (i32ofNat a.index.redirect_table.length)).toNat]? = some r := by
    rw [tmod_i32ofNat_toNat _ (hash_nonneg _ _) _ hlen]
    exact hget
  have hlen32 : a.index.redirect_table.length < 2 ^ 32 := by omega
  refine ⟨?_, ?_, ?_⟩
  · intro hr0
    subst hr0
    exact by_name_zero a p hlen32 hget'
  · intro hrpos
    intro off hoff attrs hattrs
    have hoffle : off ≤ a.index.attribute_data.length := by
      by_contra hgt
      rw [List.drop_eq_nil_of_le (by omega)] at hattrs
      exact POut.noConfusion ((by rfl :
        parse_attributes ([] : List Nat) = .error .ioError).symm.trans hattrs)
    have hi : (if r > 0 then (hash (strBytes p) r).tmod
        (i32ofNat a.index.redirect_table.length) else -1 - r).toNat =
        (hash (strBytes p) r).toNat % a.index.redirect_table.length := by
      rw [if_pos hrpos, tmod_i32ofNat_toNat _ (hash_nonneg _ _) _ hlen]
    have hres := by_name_resolved a p hlen32 hget' (by omega) hi hoff hoffle
    rw [hattrs] at hres
    constructor
    · intro hv
      rw [hres]
      dsimp only
      rw [hv]
      rfl
    · intro hv
      rw [hres]
      dsimp only
      rw [hv]
      rfl
  · intro hrneg
    intro off hoff attrs hattrs
    have hoffle : off ≤ a.index.attribute_data.length := by
      by_contra hgt
      rw [List.drop_eq_nil_of_le (by omega)] at hattrs
      exact POut.noConfusion ((by rfl :
        parse_attributes ([] : List Nat) = .error .ioError).symm.trans hattrs)
    have hi : (if r > 0 then (hash (strBytes p) r).tmod
        (i32ofNat a.index.redirect_table.length) else -1 - r).toNat =
        (-1 - r).toNat := by
      rw [if_neg (by omega)]
    have hres := by_name_resolved a p hlen32 hget' (by omega) hi hoff hoffle
    rw [hattrs] at hres
    constructor
    · intro hv
      rw [hres]
      dsimp only
      rw [hv]
      rfl
    · intro hv
      rw [hres]
      dsimp only
      rw [hv]
      rfl

/-- Witness for C1 at the concretely parsed 1-bucket archive `c2arch`:
its redirect entry is 0, so the lookup of "a" reports the path absent. -/
theorem claim_C1_witness : by_name c2arch ['a'] = .ok none := by
  have h := claim_C1 c2arch ['a'] (by decide)
  exact (h 0 (by decide)).1 rfl

end JImage

namespace JImage

theorem bigArch_len : bigArch.index.redirect_table.length = 2 ^ 32 - 1 := by
  have h1 : 1 ≤ hval := by decide
  have h31 : hval < 2 ^ 31 := by decide
  show ((0 :: List.replicate (hval - 1) (0 : Int)) ++
    (-1 : Int) :: List.replicate (2 ^ 32 - 2 - hval) 0).length = 2 ^ 32 - 1
  rw [List.length_append, List.length_cons, List.length_cons,
    List.length_replicate, List.length_replicate]
  omega

theorem by_name_bigArch : by_name bigArch ['a'] = .ok none := by
  have hget0 : bigArch.index.redirect_table[(0 : Nat)]? = some 0 := by
    show ((0 :: List.replicate (hval - 1) (0 : Int)) ++
      (-1 : Int) :: List.replicate (2 ^ 32 - 2 - hval) 0)[(0 : Nat)]? = some 0
    rw [List.getElem?_append_left (by rw [List.length_cons]; omega)]
    exact List.getElem?_cons_zero
  have hidx : ((hash (strBytes ['a']) HASH_MULTIPLIER).tmod
      (i32ofNat bigArch.index.redirect_table.length)).toNat = 0 := by
    rw [bigArch_len, show i32ofNat (2 ^ 32 - 1) = -1 from by decide,
      Int.tmod_neg, Int.tmod_one]
    rfl
  apply by_name_zero bigArch ['a'] (by rw [bigArch_len]; norm_num)
  rw [hidx]
  exact hget0

theorem bigArch_hget :
    bigArch.index.redirect_table[(hash (strBytes ['a']) HASH_MULTIPLIER).toNat %
      bigArch.index.redirect_table.length]? = some (-1) := by
  have h1 : 1 ≤ hval := by decide
  have hlt : hval < 2 ^ 32 - 1 := by
    have h31 : hval < 2 ^ 31 := by decide
    omega
  have hmod : (hash (strBytes ['a']) HASH_MULTIPLIER).toNat %
      bigArch.index.redirect_table.length = hval := by
    rw [bigArch_len]
    exact Nat.mod_eq_of_lt hlt
  rw [hmod]
  show ((0 :: List.replicate (hval - 1) (0 : Int)) ++
    (-1 : Int) :: List.replicate (2 ^ 32 - 2 - hval) 0)[hval]? = some (-1)
  have hlen1 : (0 :: List.replicate (hval - 1) (0 : Int)).length = hval := by
    rw [List.length_cons, List.length_replicate]
    omega
  rw [List.getElem?_append_right (by omega), hlen1, Nat.sub_self]
  exact List.getElem?_cons_zero

/-- C1 counterexample: an archive with `2^32 - 1` redirect buckets.  The
source computes the bucket as `hash % (table_length as i32)`; the cast
wraps to `-1`, so the code always looks at bucket 0 (here the entry 0,
"absent") while the claim's `h mod table_length` selects bucket `h`
(here a direct hit whose candidate verifies).  The claim as stated is
therefore false. -/
theorem claim_C1_cex : ¬ (∀ (a : Archive) (p : List Char), C1Prop a p) := by
  intro hall
  have h := hall bigArch ['a']
  unfold C1Prop at h
  have h2 := (h (-1) bigArch_hget).2.2 (by norm_num)
  rw [show ((-1 : Int) - (-1)).toNat = 0 from by decide] at h2
  unfold C1Lookup at h2
  have hoff : bigArch.index.attribute_offsets[0]? = some 0 := by
    show (List.replicate (2 ^ 32 - 1) (0 : Nat))[0]? = some 0
    rw [List.getElem?_replicate]
    rw [if_pos (by norm_num)]
  have h3 := h2 0 hoff c2res (by decide)
  have h4 := h3.1 (by decide)
  rw [by_name_bigArch] at h4
  simp at h4

end JImage

namespace JImage

/-- C10: `by_name` never surfaces a decode error.  When the candidate
attribute stream at the dispatched offset fails to decode, `by_name`
returns `None` — the same answer as an empty bucket (redirect entry 0) or
a failed verification — whereas sequential iteration (`Resources::next`)
panics (`unwrap`) on the same decode error. -/
theorem claim_C10 (a : Archive) (p : List Char)
    (hlen : a.index.redirect_table.length < 2 ^ 32) :
    (∀ (rv : Int) (i off : Nat) (e : JImageError),
      a.index.redirect_table[((hash (strBytes p) HASH_MULTIPLIER).tmod
        (i32ofNat a.index.redirect_table.length)).toNat]? = some rv →
      rv ≠ 0 →
      (if rv > 0 then (hash (strBytes p) rv).tmod
          (i32ofNat a.index.redirect_table.length) else -1 - rv).toNat = i →
      a.index.attribute_offsets[i]? = some off →
      off ≤ a.index.attribute_data.length →
      parse_attributes (a.index.attribute_data.drop off) = .error e →
      by_name a p = .ok none) ∧
    (a.index.redirect_table[((hash (strBytes p) HASH_MULTIPLIER).tmod
        (i32ofNat a.index.redirect_table.length)).toNat]? = some 0 →
      by_name a p = .ok none) ∧
    (∀ (rv : Int) (i off : Nat) (attrs : AttrArray),
      a.index.redirect_table[((hash (strBytes p) HASH_MULTIPLIER).tmod
        (i32ofNat a.index.redirect_table.length)).toNat]? = some rv →
      rv ≠ 0 →
      (if rv > 0 then (hash (strBytes p) rv).tmod
          (i32ofNat a.index.redirect_table.length) else -1 - rv).toNat = i →
      a.index.attribute_offsets[i]? = some off →
      parse_attributes (a.index.attribute_data.drop off) = .ok attrs →
      verify a attrs p = .ok false →
      by_name a p = .ok none) ∧
    (∀ (j off : Nat) (e : JImageError),
      j < a.index.redirect_table.length →
      a.index.attribute_offsets[j]? = some off →
      off ≤ a.index.attribute_data.length →
      parse_attributes (a.index.attribute_data.drop off) = .error e →
      resources_next a j = .panic) := by
  refine ⟨?_, ?_, ?_, ?_⟩
  · intro rv i off e hget hrv hi hoff hoffle herr
    have hres := by_name_resolved a p hlen hget hrv hi hoff hoffle
    rw [herr] at hres
    rw [hres]
  · intro hget
    exact by_name_zero a p hlen hget
  · intro rv i off attrs hget hrv hi hoff hok hver
    have hoffle : off ≤ a.index.attribute_data.length := by
      by_contra hgt
      rw [List.drop_eq_nil_of_le (by omega)] at hok
      exact POut.noConfusion ((by rfl :
        parse_attributes ([] : List Nat) = .error .ioError).symm.trans hok)
    have hres := by_name_resolved a p hlen hget hrv hi hoff hoffle
    rw [hok] at hres
    rw [hres]
    dsimp only
    rw [hver]
    rfl
  · intro j off e hj hoff hoffle herr
    unfold resources_next
    rw [if_neg (Nat.not_le.mpr hj)]
    unfold resource_at
    rw [hoff]
    dsimp only
    rw [if_pos hoffle, herr]
    rfl

/-- Witness for C10 on the archive `badArch`, whose one attribute stream
is the invalid byte `0xFF`: the lookup of "x" dispatches to it and
reports the path absent, while the iterator panics at the same stream. -/
theorem claim_C10_witness :
    by_name badArch ['x'] = .ok none ∧ resources_next badArch 0 = .panic := by
  have h := claim_C10 badArch ['x'] (by decide)
  exact ⟨h.1 (-1) 0 0 (.invalidAttributeKind 31) (by decide) (by decide)
      (by decide) (by decide) (by decide) (by decide),
    h.2.2.2 0 0 (.invalidAttributeKind 31) (by decide) (by decide)
      (by decide) (by decide)⟩

end JImage

/-- A successful decode of a non-empty byte list yields a non-empty
string: every branch of `decodeUtf8` conses a character. -/
theorem decodeUtf8_cons_ne_nil (b : Nat) (rest : List Nat) (s : List Char)
    (h : decodeUtf8 (b :: rest) = some s) : s ≠ [] := by
  unfold decodeUtf8 at h
  repeat' split at h
  all_goals try dsimp only at h
  repeat' split at h
  all_goals first
    | exact Option.noConfusion h
    | (obtain ⟨cs, -, hcs⟩ := Option.map_eq_some'.mp h
       intro h0
       rw [h0] at hcs
       exact List.noConfusion hcs)

namespace JImage

/-- A present (`Some`) `try_string` is never the empty string: the decoded
bytes are non-empty by the emptiness check, and decoding conses at least
one character. -/
theorem try_string_some_ne_nil {a : Archive} {attrs : AttrArray}
    {k : AttributeKind} {s : List Char}
    (h : try_string a attrs k = .ok (some s)) : s ≠ [] := by
  unfold try_string at h
  dsimp only at h
  split at h
  · split at h
    · exact Option.noConfusion (PanicOr.ok.inj h)
    · rename_i hbytes
      have hd := PanicOr.ok.inj h
      rcases hx : (a.index.strings_data.drop (attrs.get k)).takeWhile
          (fun n => n ≠ 0) with - | ⟨b0, rest⟩
      · rw [hx] at hbytes
        exact absurd rfl hbytes
      · rw [hx] at hd
        exact decodeUtf8_cons_ne_nil b0 rest s hd
  · exact PanicOr.noConfusion h

theorem string_at_of_try {a : Archive} {attrs : AttrArray}
    {k : AttributeKind} {o : Option (List Char)}
    (h : try_string a attrs k = .ok o) :
    string_at a attrs k = .ok (o.getD []) := by
  unfold string_at
  rw [h]
  rfl

/-- `full_name` agrees with the spec's reconstruction rule over the four
decoded strings (absent components become the empty string, and present
components are non-empty). -/
theorem full_name_eq_strings (a : Archive) (attrs : AttrArray)
    {om oq ob oe : Option (List Char)}
    (hm : try_string a attrs .module = .ok om)
    (hq : try_string a attrs .parent = .ok oq)
    (hb : try_string a attrs .base = .ok ob)
    (he : try_string a attrs .extension = .ok oe) :
    full_name a attrs = .ok (full_name_strings (om.getD []) (oq.getD [])
      (ob.getD []) (oe.getD [])) := by
  unfold full_name
  rw [hm]
  dsimp only [PanicOr.ok_bind]
  rw [hq]
  dsimp only [PanicOr.ok_bind]
  rw [hb]
  dsimp only [PanicOr.ok_bind]
  rw [he]
  dsimp only [PanicOr.ok_bind]
  cases om with
  | none =>
    cases oq with
    | none =>
      cases oe with
      | none => cases ob <;> simp [full_name_strings]
      | some x =>
        have hx := try_string_some_ne_nil he
        cases ob <;> simp [full_name_strings, hx]
    | some q =>
      have hq1 := try_string_some_ne_nil hq
      cases oe with
      | none => cases ob <;> simp [full_name_strings, hq1]
      | some x =>
        have hx := try_string_some_ne_nil he
        cases ob <;> simp [full_name_strings, hq1, hx]
  | some m =>
    have hm1 := try_string_some_ne_nil hm
    cases oq with
    | none =>
      cases oe with
      | none => cases ob <;> simp [full_name_strings, hm1]
      | some x =>
        have hx := try_string_some_ne_nil he
        cases ob <;> simp [full_name_strings, hm1, hx]
    | some q =>
      have hq1 := try_string_some_ne_nil hq
      cases oe with
      | none => cases ob <;> simp [full_name_strings, hm1, hq1]
      | some x =>
        have hx := try_string_some_ne_nil he
        cases ob <;> simp [full_name_strings, hm1, hq1, hx]

end JImage

namespace JImage

/-- `verify` fetches its four strings through the `Resource` accessors;
when each fetch succeeds it is the pure four-block check. -/
theorem verify_eq_strings (a : Archive) (attrs : AttrArray)
    (path m q b e : List Char)
    (hm : string_at a attrs .module = .ok m)
    (hq : string_at a attrs .parent = .ok q)
    (hb : string_at a attrs .base = .ok b)
    (he : string_at a attrs .extension = .ok e) :
    verify a attrs path = verify_strings m q b e path := by
  unfold verify verify_strings
  rw [hm]
  dsimp only [PanicOr.ok_bind]
  cases hvm : verify_module m path with
  | panic => rfl
  | ok o1 =>
    dsimp only [PanicOr.ok_bind]
    cases o1 with
    | none => rfl
    | some path1 =>
      rw [hq]
      dsimp only [PanicOr.ok_bind]
      cases hvp : verify_parent q path1 with
      | panic => rfl
      | ok o2 =>
        dsimp only [PanicOr.ok_bind]
        cases o2 with
        | none => rfl
        | some path2 =>
          rw [hb]
          dsimp only [PanicOr.ok_bind]
          cases hvb : verify_base b path2 with
          | panic => rfl
          | ok o3 =>
            dsimp only [PanicOr.ok_bind]
            cases o3 with
            | none => rfl
            | some path3 =>
              rw [he]
              dsimp only [PanicOr.ok_bind]

/-- Inversion of a successful `Resources` decode step. -/
theorem resource_at_ok {a : Archive} {i : Nat} {r : AttrArray}
    (h : resource_at a i = .ok r) :
    ∃ off, a.index.attribute_offsets[i]? = some off ∧
      off ≤ a.index.attribute_data.length ∧
      parse_attributes (a.index.attribute_data.drop off) = .ok r := by
  unfold resource_at at h
  split at h
  · exact PanicOr.noConfusion h
  · rename_i off hoff
    split at h
    · rename_i hoffle
      split at h
      · exact PanicOr.noConfusion h
      · exact PanicOr.noConfusion h
      · rename_i attrs hparse
        have : attrs = r := PanicOr.ok.inj h
        subst this
        exact ⟨off, hoff, hoffle, hparse⟩
    · exact PanicOr.noConfusion h

end JImage

namespace JImage

/-- C2, amended: the lookup/iteration round-trip holds for a resource `r`
yielded by the iterator at index `i` provided (1) the two-step hash
dispatch on `r`'s full name actually selects index `i` (the parser never
validates this, so it is a property of the archive, not of the code), and
(2) the module and parent strings are ASCII (otherwise `verify` rejects
the name: claim C3).  As stated over all parsed archives the claim is
false: `claim_C2_cex`. -/
theorem claim_C2 (a : Archive) (i : Nat) (r : AttrArray) (p : List Char)
    (rv : Int) (om oq ob oe : Option (List Char))
    (hlen : a.index.redirect_table.length < 2 ^ 32)
    (hnext : resources_next a i = .ok (some (r, i + 1)))
    (hm : try_string a r .module = .ok om)
    (hq : try_string a r .parent = .ok oq)
    (hb : try_string a r .base = .ok ob)
    (he : try_string a r .extension = .ok oe)
    (hfn : full_name a r = .ok p)
    (hget : a.index.redirect_table[((hash (strBytes p) HASH_MULTIPLIER).tmod
      (i32ofNat a.index.redirect_table.length)).toNat]? = some rv)
    (hrv : rv ≠ 0)
    (hi : (if rv > 0 then (hash (strBytes p) rv).tmod
        (i32ofNat a.index.redirect_table.length) else -1 - rv).toNat = i)
    (hmascii : ∀ c ∈ om.getD [], c.utf8Size = 1)
    (hqascii : ∀ c ∈ oq.getD [], c.utf8Size = 1) :
    by_name a p = .ok (some r) := by
  have hres : resource_at a i = .ok r := by
    unfold resources_next at hnext
    split at hnext
    · exact Option.noConfusion (PanicOr.ok.inj hnext)
    · obtain ⟨attrs, h1, h2⟩ := PanicOr.eq_ok_of_bind hnext
      simp only [PanicOr.ok.injEq, Option.some.injEq, Prod.mk.injEq] at h2
      exact h2.1 ▸ h1
  obtain ⟨off, hoff, hoffle, hok⟩ := resource_at_ok hres
  have hfs := full_name_eq_strings a r hm hq hb he
  rw [hfn] at hfs
  have hps : p = full_name_strings (om.getD []) (oq.getD [])
      (ob.getD []) (oe.getD []) := PanicOr.ok.inj hfs
  have hver : verify a r p = .ok true := by
    rw [verify_eq_strings a r p _ _ _ _ (string_at_of_try hm)
      (string_at_of_try hq) (string_at_of_try hb) (string_at_of_try he), hps]
    exact verify_full_name_ascii _ _ _ _ hmascii hqascii
  have hres2 := by_name_resolved a p hlen hget hrv hi hoff hoffle
  rw [hok] at hres2
  rw [hres2]
  dsimp only
  rw [hver]
  rfl

/-- C2 counterexample: `c2bytes` parses to a valid archive whose single
resource has full name "a", but its redirect entry is 0, so `by_name`
reports "a" absent while the iterator yields the resource.  The parser
never checks that the hash dispatch reaches each resource, so the claim
fails as stated. -/
theorem claim_C2_cex : ¬ C2Prop := by
  intro h
  have := h .le c2bytes c2arch (by decide) [c2res] (by decide) c2res
    (by decide) ['a'] (by decide) (by decide)
  exact absurd this (by decide)

/-- Witness for C2 on `w2arch` (the `c2bytes` archive with redirect entry
`-1`): the iterator's resource at bucket 0 has full name "a", and the
lookup of "a" returns it. -/
theorem claim_C2_witness : by_name w2arch ['a'] = .ok (some c2res) :=
  claim_C2 w2arch 0 c2res ['a'] (-1) none none (some ['a']) none
    (by decide) (by decide) (by decide) (by decide) (by decide) (by decide)
    (by decide) (by decide) (by decide) (by decide) (by decide) (by decide)

end JImage
